import Mathlib

/-!
# Snipshot: capture and window-resolution core

A shallow embedding of `internal/screenshot/capture.go` and
`internal/screenshot/window.go`, followed by the properties established about it.
The DPI-awareness request of `init` and the GUI start-up of `main.go` take no part in
any property below and are not embedded.

* Go `int` values are `Int`; `int32` fields of `RECT`/`POINT` are `Int` with the
  wrap-around of `int32` subtraction made explicit (`sub32`).
* Go `float64` values are `F64`: sign, magnitude in `ℚ`, infinities and NaN. Every
  arithmetic result is passed through a rounding function; `roundF64` is IEEE 754
  binary64 round-to-nearest-even, `id` is exact arithmetic.
* Calls into the operating system, the screen-grab library, the PNG encoder and the
  scaler are fields of `Env`; the procedure calls a run performs are recorded, in
  order, in a trace.
-/

namespace Snipshot

/-! ## Machine integers -/

/-- Two's-complement wrap of an integer into the `int32` range. -/
def wrap32 (z : Int) : Int := (z + 2 ^ 31) % 2 ^ 32 - 2 ^ 31

/-- Go `a - b` on `int32` operands. -/
def sub32 (a b : Int) : Int := wrap32 (a - b)

/-! ## float64 -/

/-- Nearest integer, ties to even. -/
def roundHalfEven (s : ℚ) : Int :=
  let f := ⌊s⌋
  if s - f < 1 / 2 then f
  else if 1 / 2 < s - f then f + 1
  else if f % 2 = 0 then f else f + 1

/-- IEEE 754 binary64 rounding (round to nearest, ties to even) of a magnitude `q ≥ 0`:
the 53-bit significand is the rounded value of `q / 2 ^ (e - 52)` where
`2 ^ e ≤ q < 2 ^ (e + 1)`. The exponent is not bounded here; every value computed
from `int64` operands below lies between `2 ^ (-63)` and `2 ^ 126`, inside the
normal range of binary64. -/
def roundF64 (q : ℚ) : ℚ :=
  let e := Int.log 2 q
  let ulp : ℚ := 2 ^ (e - 52)
  roundHalfEven (q / ulp) * ulp

/-- A `float64` value: NaN, an infinity with its sign, or a finite value given by its
sign bit and magnitude (so that `+0` and `-0` are distinct). -/
inductive F64 where
  | nan : F64
  | inf (neg : Bool) : F64
  | fin (neg : Bool) (mag : ℚ) : F64
  deriving DecidableEq

namespace F64

/-- Go `float64(n)` for an `int` n. -/
def ofInt (rnd : ℚ → ℚ) (n : Int) : F64 :=
  fin (decide (n < 0)) (rnd |(n : ℚ)|)

/-- Go `x * y` on `float64`. -/
def mul (rnd : ℚ → ℚ) : F64 → F64 → F64
  | nan, _ => nan
  | _, nan => nan
  | inf s, inf t => inf (xor s t)
  | inf s, fin t m => if m = 0 then nan else inf (xor s t)
  | fin s m, inf t => if m = 0 then nan else inf (xor s t)
  | fin s m, fin t n => fin (xor s t) (rnd (m * n))

/-- Go `x / y` on `float64`. -/
def div (rnd : ℚ → ℚ) : F64 → F64 → F64
  | nan, _ => nan
  | _, nan => nan
  | inf _, inf _ => nan
  | inf s, fin t _ => inf (xor s t)
  | fin s _, inf t => fin (xor s t) 0
  | fin s m, fin t n =>
    if n = 0 then (if m = 0 then nan else inf (xor s t))
    else fin (xor s t) (rnd (m / n))

/-- Go `x > y` on `float64`: false when either side is NaN. -/
def gt : F64 → F64 → Bool
  | nan, _ => false
  | _, nan => false
  | inf s, inf t => !s && t
  | inf s, fin _ _ => !s
  | fin _ _, inf t => t
  | fin s m, fin t n => decide ((if t then -n else n) < (if s then -m else m))

/-- Go `int(x)` for a `float64` x: the fraction is discarded (truncation towards
zero); when the result does not fit `int64` the value is implementation-dependent and
given by `conv`. -/
def toInt (conv : F64 → Int) : F64 → Int
  | fin s m =>
    let v : Int := if s then -⌊m⌋ else ⌊m⌋
    if -2 ^ 63 ≤ v ∧ v < 2 ^ 63 then v else conv (fin s m)
  | x => conv x

end F64

/-- The size computation of `CaptureDisplayThumbnail` (capture.go lines 84-100):
`rnd` is the rounding of float64 arithmetic, `conv` the implementation-dependent
part of `int(x)`. -/
def thumbnailSize (rnd : ℚ → ℚ) (conv : F64 → Int)
    (originalWidth originalHeight maxWidth maxHeight : Int) : Int × Int :=
  let thumbWidth := maxWidth
  let thumbHeight := maxHeight
  let aspectRatio := F64.div rnd (F64.ofInt rnd originalWidth) (F64.ofInt rnd originalHeight)
  let shrunk : Int × Int :=
    if F64.gt (F64.div rnd (F64.ofInt rnd thumbWidth) (F64.ofInt rnd thumbHeight)) aspectRatio then
      (F64.toInt conv (F64.mul rnd (F64.ofInt rnd thumbHeight) aspectRatio), thumbHeight)
    else
      (thumbWidth, F64.toInt conv (F64.div rnd (F64.ofInt rnd thumbWidth) aspectRatio))
  let thumbWidth := if shrunk.1 < 1 then 1 else shrunk.1
  let thumbHeight := if shrunk.2 < 1 then 1 else shrunk.2
  (thumbWidth, thumbHeight)

/-! ## Data model -/

/-- Go `image.Point`. -/
structure Point where
  X : Int
  Y : Int
  deriving DecidableEq

/-- Go `image.Rectangle`. -/
structure Rectangle where
  Min : Point
  Max : Point
  deriving DecidableEq

/-- Go `r.Dx()`. -/
def Rectangle.Dx (r : Rectangle) : Int := r.Max.X - r.Min.X

/-- Go `r.Dy()`. -/
def Rectangle.Dy (r : Rectangle) : Int := r.Max.Y - r.Min.Y

/-- Go `image.Rect(x0, y0, x1, y1)`: the coordinates are swapped where needed so that the
result is well-formed. -/
def imageRect (x0 y0 x1 y1 : Int) : Rectangle :=
  let xs : Int × Int := if x0 > x1 then (x1, x0) else (x0, x1)
  let ys : Int × Int := if y0 > y1 then (y1, y0) else (y0, y1)
  { Min := { X := xs.1, Y := ys.1 }, Max := { X := xs.2, Y := ys.2 } }

/-- Go `*image.RGBA`. -/
structure RGBA where
  Pix : List Nat
  Stride : Int
  Rect : Rectangle
  deriving DecidableEq

/-- Go `p.Bounds()`. -/
def RGBA.Bounds (p : RGBA) : Rectangle := p.Rect

/-- Go `image.NewRGBA(r)` (for a rectangle whose pixel buffer can be allocated). -/
def NewRGBA (r : Rectangle) : RGBA :=
  { Pix := List.replicate (4 * r.Dx * r.Dy).toNat 0, Stride := 4 * r.Dx, Rect := r }

/-- The screenshot data returned by every capture operation. -/
structure CaptureResult where
  Width : Int
  Height : Int
  Data : String
  deriving DecidableEq

/-- A Go `error` value. -/
structure Error where
  msg : String
  deriving DecidableEq

/-- The pair `(*CaptureResult, error)` a capture operation returns; `none` is `nil`. -/
abbrev Outcome := Option CaptureResult × Option Error

/-- Win32 `RECT`; the fields are `int32`. -/
structure RECT where
  Left : Int
  Top : Int
  Right : Int
  Bottom : Int
  deriving DecidableEq

/-- Win32 `POINT`; the fields are `int32`. -/
structure POINT where
  X : Int
  Y : Int
  deriving DecidableEq

def DWMWA_EXTENDED_FRAME_BOUNDS : Nat := 9

def PROCESS_PER_MONITOR_DPI_AWARE : Nat := 2

def SW_RESTORE : Nat := 9

/-! ## Environment and trace -/

/-- What lies outside the two source files: the screen-grab library
(`kbinani/screenshot`), `image/png` with `encoding/base64`, the scaler of
`x/image/draw`, and the `user32`/`dwmapi` procedures. A procedure that fills a buffer
maps the buffer before the call to the buffer after it. Each field gives the answer
the call returns at the point where a run makes it; the display configuration does not
change during a run. -/
structure Env where
  /-- Go `screenshot.NumActiveDisplays()`. -/
  NumActiveDisplays : Int
  /-- Go `screenshot.GetDisplayBounds(i)`. -/
  GetDisplayBounds : Int → Rectangle
  /-- Go `screenshot.CaptureRect(rect)`. -/
  CaptureRect : Rectangle → Except Error RGBA
  /-- Go `screenshot.Capture(x, y, width, height)`. -/
  Capture : Int → Int → Int → Int → Except Error RGBA
  /-- Go `png.Encode(&buf, img)`: the bytes written, or the error. -/
  pngEncode : RGBA → Except Error (List Nat)
  /-- Go `base64.StdEncoding.EncodeToString`. -/
  base64 : List Nat → String
  /-- Go `draw.CatmullRom.Scale(dst, dst.Bounds(), src, src.Bounds(), draw.Over, nil)`:
  the pixels of `dst` after the call. -/
  catmullRomScale : RGBA → RGBA → List Nat
  /-- Return value of `IsIconic`. -/
  IsIconic : Nat → Nat
  GetClientRect : Nat → RECT → RECT
  ClientToScreen : Nat → POINT → POINT
  /-- Whether `dwmapi.Load()` returns nil. -/
  dwmapiLoad : Bool
  /-- Whether `procDwmGetWindowAttribute.Find()` returns nil. -/
  dwmFind : Bool
  /-- `DwmGetWindowAttribute(hwnd, attr, &rect, size)`: return value and buffer. -/
  DwmGetWindowAttribute : Nat → Nat → RECT → Nat → Nat × RECT
  GetWindowRect : Nat → RECT → RECT
  GetCursorPos : POINT → POINT

/-- A call that acts on or reads the desktop: a `user32`/`dwmapi` procedure call,
`time.Sleep`, or a grab. -/
inductive Call where
  | IsIconic (hwnd : Nat)
  | ShowWindow (hwnd cmd : Nat)
  | BringWindowToTop (hwnd : Nat)
  | SetForegroundWindow (hwnd : Nat)
  | Sleep (milliseconds : Nat)
  | GetClientRect (hwnd : Nat)
  | ClientToScreen (hwnd : Nat)
  | DwmGetWindowAttribute (hwnd attr : Nat)
  | GetWindowRect (hwnd : Nat)
  | GetCursorPos
  | CaptureRect (rect : Rectangle)
  | Capture (x y width height : Int)
  deriving DecidableEq

/-- Whether the call is a screen grab. -/
def Call.isGrab : Call → Bool
  | Call.CaptureRect _ => true
  | Call.Capture _ _ _ _ => true
  | _ => false

/-- A computation that appends the calls it makes to the trace. -/
abbrev Run := StateM (List Call)

/-- Record one call. -/
def emit (c : Call) : Run Unit := modify (fun tr => tr ++ [c])

/-- Result and trace of a run started with an empty trace. -/
def exec {α : Type} (m : Run α) : α × List Call := m.run []

/-! ## capture.go -/

/-- Source: `encodeImage`. -/
def encodeImage (env : Env) (img : RGBA) : Outcome :=
  match env.pngEncode img with
  | .error err => (none, some err)
  | .ok buf =>
    (some { Width := img.Bounds.Dx, Height := img.Bounds.Dy, Data := env.base64 buf }, none)

/-- Source: `GetDisplayCount`. -/
def GetDisplayCount (env : Env) : Int := env.NumActiveDisplays

/-- Source: `GetDisplayBounds`. -/
def GetDisplayBounds (env : Env) (displayIndex : Int) : Rectangle :=
  env.GetDisplayBounds displayIndex

/-- Source: `CaptureRegion`. -/
def CaptureRegion (env : Env) (x y width height : Int) : Run Outcome := do
  emit (Call.Capture x y width height)
  match env.Capture x y width height with
  | .error err => return (none, some err)
  | .ok img => return encodeImage env img

/-- Source: `CaptureDisplay`. -/
def CaptureDisplay (env : Env) (displayIndex : Int) : Run Outcome := do
  let bounds := env.GetDisplayBounds displayIndex
  emit (Call.CaptureRect bounds)
  match env.CaptureRect bounds with
  | .error err => return (none, some err)
  | .ok img => return encodeImage env img

/-- Source: `CaptureDisplayThumbnail`; `rnd` and `conv` fix the float64 arithmetic. -/
def CaptureDisplayThumbnail (rnd : ℚ → ℚ) (conv : F64 → Int) (env : Env)
    (displayIndex maxWidth maxHeight : Int) : Run Outcome := do
  let bounds := env.GetDisplayBounds displayIndex
  emit (Call.CaptureRect bounds)
  match env.CaptureRect bounds with
  | .error err => return (none, some err)
  | .ok img =>
    let originalWidth := img.Bounds.Dx
    let originalHeight := img.Bounds.Dy
    let size := thumbnailSize rnd conv originalWidth originalHeight maxWidth maxHeight
    let thumbnail := NewRGBA (imageRect 0 0 size.1 size.2)
    let thumbnail := { thumbnail with Pix := env.catmullRomScale thumbnail img }
    return encodeImage env thumbnail

/-! ## window.go -/

/-- Source: `bringWindowToForeground`. -/
def bringWindowToForeground (env : Env) (hwnd : Nat) : Run Unit := do
  emit (Call.IsIconic hwnd)
  let isMinimized := env.IsIconic hwnd
  if isMinimized ≠ 0 then
    emit (Call.ShowWindow hwnd SW_RESTORE)
  emit (Call.BringWindowToTop hwnd)
  emit (Call.SetForegroundWindow hwnd)
  emit (Call.Sleep 100)

/-- The rectangle resolution of `CaptureWindowByCoords` (window.go lines 79-124):
the values of `x, y, width, height` when the validation is reached. -/
def resolveWindowRect (env : Env) (hwnd : Nat) (excludeTitleBar : Bool) :
    Run (Int × Int × Int × Int) := do
  if excludeTitleBar then
    let clientRect : RECT := ⟨0, 0, 0, 0⟩
    let clientPoint : POINT := ⟨0, 0⟩
    emit (Call.GetClientRect hwnd)
    let clientRect := env.GetClientRect hwnd clientRect
    let clientPoint := { clientPoint with X := 0, Y := 0 }
    emit (Call.ClientToScreen hwnd)
    let clientPoint := env.ClientToScreen hwnd clientPoint
    return (clientPoint.X, clientPoint.Y,
      sub32 clientRect.Right clientRect.Left, sub32 clientRect.Bottom clientRect.Top)
  else
    let rect : RECT := ⟨0, 0, 0, 0⟩
    if env.dwmapiLoad && env.dwmFind then
      emit (Call.DwmGetWindowAttribute hwnd DWMWA_EXTENDED_FRAME_BOUNDS)
      let (ret, rect) := env.DwmGetWindowAttribute hwnd DWMWA_EXTENDED_FRAME_BOUNDS rect 16
      if ret ≠ 0 then
        emit (Call.GetWindowRect hwnd)
        let rect := env.GetWindowRect hwnd rect
        return (rect.Left, rect.Top, sub32 rect.Right rect.Left, sub32 rect.Bottom rect.Top)
      else
        return (rect.Left, rect.Top, sub32 rect.Right rect.Left, sub32 rect.Bottom rect.Top)
    else
      emit (Call.GetWindowRect hwnd)
      let rect := env.GetWindowRect hwnd rect
      return (rect.Left, rect.Top, sub32 rect.Right rect.Left, sub32 rect.Bottom rect.Top)

/-- Source: `CaptureWindowByCoords`. -/
def CaptureWindowByCoords (env : Env) (hwnd : Nat) (excludeTitleBar : Bool) : Run Outcome := do
  bringWindowToForeground env hwnd
  let (x, y, width, height) ← resolveWindowRect env hwnd excludeTitleBar
  if width ≤ 0 ∨ height ≤ 0 then
    return (none, none)
  else
    CaptureRegion env x y width height

/-- Source: `GetCursorPosition`. -/
def GetCursorPosition (env : Env) : Run (Int × Int) := do
  let pt : POINT := ⟨0, 0⟩
  emit Call.GetCursorPos
  let pt := env.GetCursorPos pt
  return (pt.X, pt.Y)

/-- The loop of `GetMonitorAtCursor` with `remaining = numDisplays - i` iterations left:
the first index from `i` on whose bounds hold the cursor, or the fallback 0. -/
def monitorScan (env : Env) (cursorX cursorY : Int) : Nat → Int → Int
  | 0, _ => 0
  | remaining + 1, i =>
    let bounds := GetDisplayBounds env i
    if cursorX ≥ bounds.Min.X ∧ cursorX < bounds.Max.X ∧
        cursorY ≥ bounds.Min.Y ∧ cursorY < bounds.Max.Y then
      i
    else
      monitorScan env cursorX cursorY remaining (i + 1)

/-- Source: `GetMonitorAtCursor`. -/
def GetMonitorAtCursor (env : Env) : Run Int := do
  let (cursorX, cursorY) ← GetCursorPosition env
  let numDisplays := GetDisplayCount env
  return monitorScan env cursorX cursorY numDisplays.toNat 0

/-- Source: `CaptureFullscreen`. -/
def CaptureFullscreen (env : Env) : Run Outcome := do
  let displayIndex ← GetMonitorAtCursor env
  let bounds := env.GetDisplayBounds displayIndex
  emit (Call.CaptureRect bounds)
  match env.CaptureRect bounds with
  | .error err => return (none, some err)
  | .ok img => return encodeImage env img

/-- Source: `CaptureActiveDisplay`. -/
def CaptureActiveDisplay (env : Env) : Run (Option CaptureResult × Int × Option Error) := do
  let displayIndex ← GetMonitorAtCursor env
  let bounds := env.GetDisplayBounds displayIndex
  emit (Call.CaptureRect bounds)
  match env.CaptureRect bounds with
  | .error err => return (none, displayIndex, some err)
  | .ok img =>
    let result := encodeImage env img
    return (result.1, displayIndex, result.2)

/-! ## Specification vocabulary -/

/-- The half-open membership test of the claims: `Min.X ≤ x < Max.X` and
`Min.Y ≤ y < Max.Y`. -/
def inBounds (r : Rectangle) (x y : Int) : Prop :=
  r.Min.X ≤ x ∧ x < r.Max.X ∧ r.Min.Y ≤ y ∧ y < r.Max.Y

instance (r : Rectangle) (x y : Int) : Decidable (inBounds r x y) := by
  unfold inBounds
  infer_instance

/-- The cursor position `GetCursorPosition` reports in `env`. -/
def cursorOf (env : Env) : Int × Int :=
  ((env.GetCursorPos ⟨0, 0⟩).X, (env.GetCursorPos ⟨0, 0⟩).Y)

/-- The rectangle `CaptureWindowByCoords` uses when `excludeTitleBar` is false, in the
words of the specification: the extended frame bounds when the compositor procedure is
available and its call returns 0, otherwise what `GetWindowRect` leaves in the buffer. -/
def fullWindowRECT (env : Env) (hwnd : Nat) : RECT :=
  let dwm := env.DwmGetWindowAttribute hwnd DWMWA_EXTENDED_FRAME_BOUNDS ⟨0, 0, 0, 0⟩ 16
  if env.dwmapiLoad = true ∧ env.dwmFind = true then
    if dwm.1 = 0 then dwm.2 else env.GetWindowRect hwnd dwm.2
  else env.GetWindowRect hwnd ⟨0, 0, 0, 0⟩

/-- The procedure calls of the full-window resolution. -/
def fullWindowCalls (env : Env) (hwnd : Nat) : List Call :=
  let dwm := env.DwmGetWindowAttribute hwnd DWMWA_EXTENDED_FRAME_BOUNDS ⟨0, 0, 0, 0⟩ 16
  if env.dwmapiLoad = true ∧ env.dwmFind = true then
    if dwm.1 = 0 then [Call.DwmGetWindowAttribute hwnd DWMWA_EXTENDED_FRAME_BOUNDS]
    else [Call.DwmGetWindowAttribute hwnd DWMWA_EXTENDED_FRAME_BOUNDS, Call.GetWindowRect hwnd]
  else [Call.GetWindowRect hwnd]

/-- A rounding function with relative error at most `u`: `|rnd q - q| ≤ u * q` for
every `q > 0`. -/
def RelErr (rnd : ℚ → ℚ) (u : ℚ) : Prop := ∀ q : ℚ, 0 < q → |rnd q - q| ≤ u * q

/-! ## Sample environments -/

/-- An image of the given size with no pixel data attached. -/
def blankImage (width height : Int) : RGBA :=
  { Pix := [], Stride := 4 * width, Rect := ⟨⟨0, 0⟩, ⟨width, height⟩⟩ }

/-- A PNG encoder that, like Go's `image/png`, rejects an image of non-positive width
or height. -/
def pngStub (img : RGBA) : Except Error (List Nat) :=
  if img.Bounds.Dx ≤ 0 ∨ img.Bounds.Dy ≤ 0 then .error ⟨"png: invalid image size"⟩
  else .ok []

/-- One display `(0,0)-(1920,1080)`, cursor at `(500,300)`, a grab that returns an image
of the requested size, a window `(100,100)-(900,700)` whose compositor query succeeds. -/
def deskEnv : Env where
  NumActiveDisplays := 1
  GetDisplayBounds := fun i => if i = 0 then imageRect 0 0 1920 1080 else imageRect 0 0 0 0
  CaptureRect := fun r => .ok (blankImage r.Dx r.Dy)
  Capture := fun _ _ w h => .ok (blankImage w h)
  pngEncode := pngStub
  base64 := fun _ => ""
  catmullRomScale := fun dst _ => dst.Pix
  IsIconic := fun _ => 0
  GetClientRect := fun _ _ => ⟨0, 0, 780, 560⟩
  ClientToScreen := fun _ p => ⟨p.X + 110, p.Y + 130⟩
  dwmapiLoad := true
  dwmFind := true
  DwmGetWindowAttribute := fun _ _ _ _ => (0, ⟨100, 100, 900, 700⟩)
  GetWindowRect := fun _ _ => ⟨93, 100, 907, 707⟩
  GetCursorPos := fun _ => ⟨500, 300⟩

/-- As `deskEnv`, with every grab failing. -/
def deniedEnv : Env :=
  { deskEnv with
    CaptureRect := fun _ => .error ⟨"BitBlt failed"⟩
    Capture := fun _ _ _ _ => .error ⟨"BitBlt failed"⟩ }

/-- As `deskEnv`, with a grab that returns a one-pixel image whatever is requested. -/
def lenientEnv : Env :=
  { deskEnv with
    CaptureRect := fun _ => .ok (blankImage 1 1)
    Capture := fun _ _ _ _ => .ok (blankImage 1 1) }

/-- Two displays that overlap on `(1000,0)-(1920,1080)`, cursor at `(1500,300)`. -/
def overlapEnv : Env :=
  { deskEnv with
    NumActiveDisplays := 2
    GetDisplayBounds := fun i =>
      if i = 0 then imageRect 0 0 1920 1080
      else if i = 1 then imageRect 1000 0 2920 1080 else imageRect 0 0 0 0
    GetCursorPos := fun _ => ⟨1500, 300⟩ }

/-- As `deskEnv`, without the compositor library. -/
def legacyEnv : Env :=
  { deskEnv with dwmapiLoad := false }

/-- As `deskEnv`, with a minimized window whose rectangle is empty. -/
def emptyWindowEnv : Env :=
  { deskEnv with
    IsIconic := fun _ => 1
    DwmGetWindowAttribute := fun _ _ _ _ => (0, ⟨100, 100, 100, 100⟩) }

/-! ## Rounding -/

/-- Rounding to the nearest integer moves a value by at most one half. -/
theorem roundHalfEven_sub_le (s : ℚ) : |(roundHalfEven s : ℚ) - s| ≤ 1 / 2 := by
  have h1 : (⌊s⌋ : ℚ) ≤ s := Int.floor_le s
  have h2 : s < ⌊s⌋ + 1 := Int.lt_floor_add_one s
  unfold roundHalfEven
  simp only
  rw [abs_le]
  split_ifs with ha hb hc
  · constructor <;> linarith
  · push_cast; constructor <;> linarith
  · have : s - ⌊s⌋ = 1 / 2 := le_antisymm (not_lt.mp hb) (not_lt.mp ha)
    constructor <;> linarith
  · have : s - ⌊s⌋ = 1 / 2 := le_antisymm (not_lt.mp hb) (not_lt.mp ha)
    push_cast; constructor <;> linarith

/-- An integer is its own rounding. -/
theorem roundHalfEven_intCast (k : Int) : roundHalfEven (k : ℚ) = k := by
  unfold roundHalfEven
  simp

/-- The integer within less than one half of a value is its rounding. -/
theorem roundHalfEven_eq_of_near (s : ℚ) (m : Int) (h : |s - m| < 1 / 2) :
    roundHalfEven s = m := by
  obtain ⟨hlo, hhi⟩ := abs_lt.mp h
  unfold roundHalfEven
  simp only
  rcases le_or_lt (m : ℚ) s with hms | hms
  · have hf : ⌊s⌋ = m := Int.floor_eq_iff.mpr ⟨hms, by linarith⟩
    rw [hf, if_pos (by linarith)]
  · have hf : ⌊s⌋ = m - 1 := Int.floor_eq_iff.mpr ⟨by push_cast; linarith, by push_cast; linarith⟩
    rw [hf, if_neg (by push_cast; linarith), if_pos (by push_cast; linarith)]
    ring

/-- The absolute error of binary64 rounding is at most `q / 2 ^ 53`. -/
theorem roundF64_sub_le (q : ℚ) (hq : 0 < q) : |roundF64 q - q| ≤ q / 2 ^ 53 := by
  unfold roundF64
  simp only
  set e := Int.log 2 q with he
  have hlo : (2 : ℚ) ^ e ≤ q := by
    have := Int.zpow_log_le_self (b := 2) (r := q) (by norm_num) hq
    simpa using this
  have hu : (0 : ℚ) < 2 ^ (e - 52) := by positivity
  have hr := roundHalfEven_sub_le (q / 2 ^ (e - 52))
  have key : (roundHalfEven (q / 2 ^ (e - 52)) : ℚ) * 2 ^ (e - 52) - q
      = ((roundHalfEven (q / 2 ^ (e - 52)) : ℚ) - q / 2 ^ (e - 52)) * 2 ^ (e - 52) := by
    field_simp
  rw [key, abs_mul, abs_of_pos hu]
  have h52 : (2 : ℚ) ^ (e - 52) = 2 ^ e / 2 ^ 52 := by
    rw [zpow_sub₀ (by norm_num)]; norm_num
  calc |(roundHalfEven (q / 2 ^ (e - 52)) : ℚ) - q / 2 ^ (e - 52)| * 2 ^ (e - 52)
      ≤ 1 / 2 * 2 ^ (e - 52) := by gcongr
    _ = 2 ^ e / 2 ^ 53 := by rw [h52]; ring
    _ ≤ q / 2 ^ 53 := by gcongr

/-- Every integer below `2 ^ 53` is a binary64 value: `float64(n)` is exact. -/
theorem roundF64_intCast (n : Int) (h0 : 0 < n) (h1 : n < 2 ^ 53) : roundF64 (n : ℚ) = n := by
  unfold roundF64
  simp only
  set e := Int.log 2 (n : ℚ) with he
  have hq : (0 : ℚ) < n := by exact_mod_cast h0
  have hlo : (2 : ℚ) ^ e ≤ n := by
    have := Int.zpow_log_le_self (b := 2) (r := (n : ℚ)) (by norm_num) hq
    simpa using this
  have he52 : e < 53 := by
    by_contra hcon
    have h53 : (53 : ℤ) ≤ e := not_lt.mp hcon
    have : (2 : ℚ) ^ (53 : ℤ) ≤ 2 ^ e := zpow_le_zpow_right₀ (by norm_num) h53
    have h3 : ((2 : ℚ) ^ (53 : ℤ)) = ((2 ^ 53 : ℤ) : ℚ) := by norm_num
    have h4 : ((n : ℤ) : ℚ) < ((2 ^ 53 : ℤ) : ℚ) := by exact_mod_cast h1
    linarith
  obtain ⟨k, hk⟩ : ∃ k : ℕ, (52 : ℤ) - e = k := ⟨(52 - e).toNat, by omega⟩
  have hu : (2 : ℚ) ^ (e - 52) = 1 / 2 ^ k := by
    have : e - 52 = -(k : ℤ) := by omega
    rw [this, zpow_neg, zpow_natCast]; simp
  rw [hu]
  have : (n : ℚ) / (1 / 2 ^ k) = ((n * 2 ^ k : ℤ) : ℚ) := by
    push_cast; field_simp
  rw [this, roundHalfEven_intCast]
  push_cast; field_simp

/-- Binary64 rounding from the binade and the nearest significand. -/
theorem roundF64_eq_of_near (q : ℚ) (e m : Int) (h1 : (2 : ℚ) ^ e ≤ q) (h2 : q < (2 : ℚ) ^ (e + 1))
    (h3 : |q / (2 : ℚ) ^ (e - 52) - m| < 1 / 2) : roundF64 q = m * (2 : ℚ) ^ (e - 52) := by
  have hq : 0 < q := lt_of_lt_of_le (by positivity) h1
  have he : Int.log 2 q = e := by
    apply le_antisymm
    · have := (Int.lt_zpow_iff_log_lt (b := 2) (by norm_num) hq (x := e + 1)).mp (by simpa using h2)
      omega
    · exact (Int.zpow_le_iff_le_log (b := 2) (by norm_num) hq (x := e)).mp (by simpa using h1)
  unfold roundF64
  simp only [he]
  rw [roundHalfEven_eq_of_near _ m h3]

/-- Upper bound from a relative error bound. -/
theorem RelErr.le {rnd : ℚ → ℚ} {u : ℚ} (h : RelErr rnd u) {q : ℚ} (hq : 0 < q) :
    rnd q ≤ (1 + u) * q := by
  have := (abs_le.mp (h q hq)).2
  linarith

/-- Lower bound from a relative error bound. -/
theorem RelErr.ge {rnd : ℚ → ℚ} {u : ℚ} (h : RelErr rnd u) {q : ℚ} (hq : 0 < q) :
    (1 - u) * q ≤ rnd q := by
  have := (abs_le.mp (h q hq)).1
  linarith

/-- A rounding with relative error below 1 keeps positive values positive. -/
theorem RelErr.pos {rnd : ℚ → ℚ} {u : ℚ} (h : RelErr rnd u) (hu : u < 1) {q : ℚ} (hq : 0 < q) :
    0 < rnd q := by
  have h1 := h.ge hq
  have : 0 < (1 - u) * q := mul_pos (by linarith) hq
  linarith

/-- Exact arithmetic has relative error 0. -/
theorem relErr_id : RelErr id 0 := by
  intro q _
  simp

/-- Binary64 rounding has relative error at most `2 ^ (-53)`. -/
theorem relErr_roundF64 : RelErr roundF64 (1 / 2 ^ 53) := by
  intro q hq
  have := roundF64_sub_le q hq
  calc |roundF64 q - q| ≤ q / 2 ^ 53 := this
    _ = 1 / 2 ^ 53 * q := by ring

/-! ## Closed form of the size computation -/

/-- The float64 of a positive integer that the rounding leaves unchanged. -/
theorem F64.ofInt_pos (rnd : ℚ → ℚ) (n : Int) (h0 : 0 < n) (hr : rnd (n : ℚ) = n) :
    F64.ofInt rnd n = F64.fin false (n : ℚ) := by
  have hq : (0 : ℚ) < n := by exact_mod_cast h0
  simp [F64.ofInt, abs_of_pos hq, hr, not_lt.mpr h0.le]

/-- Division of finite values by a non-zero divisor. -/
theorem F64.div_fin (rnd : ℚ → ℚ) (s t : Bool) (m n : ℚ) (hn : n ≠ 0) :
    F64.div rnd (F64.fin s m) (F64.fin t n) = F64.fin (xor s t) (rnd (m / n)) := by
  simp [F64.div, hn]

/-- Go `int(x)` of a non-negative finite value below `2 ^ 63` is its floor. -/
theorem F64.toInt_fin_nonneg (conv : F64 → Int) (x : ℚ) (h0 : 0 ≤ x) (h1 : ⌊x⌋ < 2 ^ 63) :
    F64.toInt conv (F64.fin false x) = ⌊x⌋ := by
  have hf : 0 ≤ ⌊x⌋ := Int.floor_nonneg.mpr h0
  simp only [F64.toInt, Bool.false_eq_true, if_false]
  rw [if_pos ⟨by omega, h1⟩]

/-- Closed form of the size computation on positive inputs that convert exactly. -/
theorem thumbnailSize_pos (rnd : ℚ → ℚ) (conv : F64 → Int) (ow oh mw mh : Int)
    (how : 0 < ow) (hoh : 0 < oh) (hmw : 0 < mw) (hmh : 0 < mh)
    (row : rnd (ow : ℚ) = ow) (roh : rnd (oh : ℚ) = oh)
    (rmw : rnd (mw : ℚ) = mw) (rmh : rnd (mh : ℚ) = mh)
    (ha : rnd ((ow : ℚ) / oh) ≠ 0) :
    thumbnailSize rnd conv ow oh mw mh =
      (if rnd ((ow : ℚ) / oh) < rnd ((mw : ℚ) / mh) then
        (max 1 (F64.toInt conv (F64.fin false (rnd (mh * rnd ((ow : ℚ) / oh))))), mh)
       else
        (mw, max 1 (F64.toInt conv (F64.fin false (rnd (mw / rnd ((ow : ℚ) / oh))))))) := by
  have hoh0 : (oh : ℚ) ≠ 0 := by exact_mod_cast hoh.ne'
  have hmh0 : (mh : ℚ) ≠ 0 := by exact_mod_cast hmh.ne'
  unfold thumbnailSize
  simp only [F64.ofInt_pos rnd ow how row, F64.ofInt_pos rnd oh hoh roh,
    F64.ofInt_pos rnd mw hmw rmw, F64.ofInt_pos rnd mh hmh rmh, F64.div, F64.mul, F64.gt,
    hoh0, hmh0, ha, if_false, Bool.xor_false, Bool.false_eq_true, decide_eq_true_eq]
  by_cases h : rnd ((ow : ℚ) / oh) < rnd ((mw : ℚ) / mh)
  · simp only [h, if_true]
    refine Prod.ext ?_ ?_
    · show (if _ < (1 : Int) then (1 : Int) else _) = max 1 _
      rw [max_def]; split_ifs <;> omega
    · show (if mh < (1 : Int) then (1 : Int) else mh) = mh
      rw [if_neg (by omega)]
  · simp only [h, if_false]
    refine Prod.ext ?_ ?_
    · show (if mw < (1 : Int) then (1 : Int) else mw) = mw
      rw [if_neg (by omega)]
    · show (if _ < (1 : Int) then (1 : Int) else _) = max 1 _
      rw [max_def]; split_ifs <;> omega

/-- Both computed dimensions are at least 1, whatever the inputs and the arithmetic:
the two clamps of capture.go lines 95-100. -/
theorem thumbnailSize_ge_one (rnd : ℚ → ℚ) (conv : F64 → Int)
    (originalWidth originalHeight maxWidth maxHeight : Int) :
    1 ≤ (thumbnailSize rnd conv originalWidth originalHeight maxWidth maxHeight).1 ∧
    1 ≤ (thumbnailSize rnd conv originalWidth originalHeight maxWidth maxHeight).2 := by
  unfold thumbnailSize
  simp only
  constructor <;> split_ifs <;> omega

/-- The computed size stays within the request for any rounding of relative error `u`
that is small against the request. -/
theorem thumbnailSize_bounds_of_relErr (rnd : ℚ → ℚ) (u : ℚ) (conv : F64 → Int)
    (ow oh mw mh : Int)
    (how : 0 < ow) (hoh : 0 < oh) (hmw : 0 < mw) (hmh : 0 < mh)
    (hmw63 : mw < 2 ^ 63) (hmh63 : mh < 2 ^ 63)
    (row : rnd (ow : ℚ) = ow) (roh : rnd (oh : ℚ) = oh)
    (rmw : rnd (mw : ℚ) = mw) (rmh : rnd (mh : ℚ) = mh)
    (herr : RelErr rnd u) (hu0 : 0 ≤ u) (hu1 : u < 1)
    (c1 : (1 + u) * ((1 + u) * mw) ≤ mw + 1)
    (c2 : (1 + u) * mh < (mh + 1) * (1 - u)) :
    1 ≤ (thumbnailSize rnd conv ow oh mw mh).1 ∧ (thumbnailSize rnd conv ow oh mw mh).1 ≤ mw ∧
    1 ≤ (thumbnailSize rnd conv ow oh mw mh).2 ∧ (thumbnailSize rnd conv ow oh mw mh).2 ≤ mh := by
  have qow : (0 : ℚ) < ow := by exact_mod_cast how
  have qoh : (0 : ℚ) < oh := by exact_mod_cast hoh
  have qmw : (0 : ℚ) < mw := by exact_mod_cast hmw
  have qmh : (0 : ℚ) < mh := by exact_mod_cast hmh
  have hq : (0 : ℚ) < (ow : ℚ) / oh := div_pos qow qoh
  have hr : (0 : ℚ) < (mw : ℚ) / mh := div_pos qmw qmh
  have ha : 0 < rnd ((ow : ℚ) / oh) := herr.pos hu1 hq
  rw [thumbnailSize_pos rnd conv ow oh mw mh how hoh hmw hmh row roh rmw rmh ha.ne']
  set a := rnd ((ow : ℚ) / oh) with hadef
  set r := rnd ((mw : ℚ) / mh) with hrdef
  have hr_le : r ≤ (1 + u) * ((mw : ℚ) / mh) := herr.le hr
  have hr_ge : (1 - u) * ((mw : ℚ) / mh) ≤ r := herr.ge hr
  by_cases h : a < r
  · simp only [h, if_true]
    have hp : (0 : ℚ) < mh * a := mul_pos qmh ha
    have hP0 : 0 < rnd (mh * a) := herr.pos hu1 hp
    have hP1 : rnd (mh * a) ≤ (1 + u) * (mh * a) := herr.le hp
    have h2 : (mh : ℚ) * a < (1 + u) * mw := by
      calc (mh : ℚ) * a < mh * r := by gcongr
        _ ≤ mh * ((1 + u) * ((mw : ℚ) / mh)) := by gcongr
        _ = (1 + u) * mw := by field_simp
    have h3 : rnd (mh * a) < mw + 1 := by
      calc rnd (mh * a) ≤ (1 + u) * (mh * a) := hP1
        _ < (1 + u) * ((1 + u) * mw) := by gcongr
        _ ≤ mw + 1 := c1
    have hfl : ⌊rnd ((mh : ℚ) * a)⌋ < mw + 1 := by
      have : ((⌊rnd ((mh : ℚ) * a)⌋ : Int) : ℚ) < ((mw + 1 : Int) : ℚ) := by
        push_cast
        exact lt_of_le_of_lt (Int.floor_le _) h3
      exact_mod_cast this
    rw [F64.toInt_fin_nonneg conv _ hP0.le (by omega)]
    refine ⟨le_max_left _ _, max_le (by omega) (by omega), by omega, le_refl _⟩
  · simp only [h, if_false]
    have hra : r ≤ a := not_lt.mp h
    have hp : (0 : ℚ) < mw / a := div_pos qmw ha
    have hQ0 : 0 < rnd (mw / a) := herr.pos hu1 hp
    have hQ1 : rnd (mw / a) ≤ (1 + u) * (mw / a) := herr.le hp
    have h1u : 0 < 1 - u := by linarith
    have h2 : (mw : ℚ) / a ≤ mh / (1 - u) := by
      rw [div_le_div_iff₀ ha h1u]
      have : (1 - u) * ((mw : ℚ) / mh) * mh ≤ a * mh := by
        have := hr_ge.trans hra
        gcongr
      have e : (1 - u) * ((mw : ℚ) / mh) * mh = mw * (1 - u) := by field_simp; ring
      linarith
    have h3 : rnd (mw / a) < mh + 1 := by
      calc rnd (mw / a) ≤ (1 + u) * (mw / a) := hQ1
        _ ≤ (1 + u) * (mh / (1 - u)) := by gcongr
        _ = (1 + u) * mh / (1 - u) := by ring
        _ < mh + 1 := by rw [div_lt_iff₀ h1u]; exact c2
    have hfl : ⌊rnd ((mw : ℚ) / a)⌋ < mh + 1 := by
      have : ((⌊rnd ((mw : ℚ) / a)⌋ : Int) : ℚ) < ((mh + 1 : Int) : ℚ) := by
        push_cast
        exact lt_of_le_of_lt (Int.floor_le _) h3
      exact_mod_cast this
    rw [F64.toInt_fin_nonneg conv _ hQ0.le (by omega)]
    refine ⟨by omega, le_refl _, le_max_left _ _, max_le (by omega) (by omega)⟩

/-- A value within `1 / d` of the fraction `N / d` truncates to at most `N / d`, and its
truncation clamped to 1 is at most one away from `N / d`. -/
theorem clamp_floor_near (x : ℚ) (N d : Int) (hd : 0 < d) (hN : 0 < N)
    (h : |x - (N : ℚ) / d| < 1 / (d : ℚ)) :
    ⌊x⌋ * d ≤ N ∧ |((max 1 ⌊x⌋ : Int) : ℚ) - (N : ℚ) / d| ≤ 1 := by
  have qd : (0 : ℚ) < d := by exact_mod_cast hd
  have qN : (0 : ℚ) < N := by exact_mod_cast hN
  obtain ⟨hlo, hhi⟩ := abs_lt.mp h
  have hfl : (⌊x⌋ : ℚ) ≤ x := Int.floor_le x
  have hfu : x < ⌊x⌋ + 1 := Int.lt_floor_add_one x
  -- upper: ⌊x⌋ * d ≤ N
  have hup : ⌊x⌋ * d ≤ N := by
    have h1 : (⌊x⌋ : ℚ) < (N : ℚ) / d + 1 / d := by linarith
    have h2 : (⌊x⌋ : ℚ) * d < N + 1 := by
      have := mul_lt_mul_of_pos_right h1 qd
      have e : ((N : ℚ) / d + 1 / d) * d = N + 1 := by field_simp
      linarith
    have h3 : ⌊x⌋ * d < N + 1 := by exact_mod_cast h2
    omega
  -- lower: N ≤ (⌊x⌋ + 1) * d
  have hdn : N ≤ (⌊x⌋ + 1) * d := by
    have h1 : (N : ℚ) / d - 1 / d < ⌊x⌋ + 1 := by linarith
    have h2 : (N : ℚ) - 1 < ((⌊x⌋ : ℚ) + 1) * d := by
      have := mul_lt_mul_of_pos_right h1 qd
      have e : ((N : ℚ) / d - 1 / d) * d = N - 1 := by field_simp
      linarith
    have h3 : N - 1 < (⌊x⌋ + 1) * d := by exact_mod_cast h2
    omega
  refine ⟨hup, ?_⟩
  have hupq : (⌊x⌋ : ℚ) ≤ (N : ℚ) / d := by
    rw [le_div_iff₀ qd]; exact_mod_cast hup
  have hdnq : (N : ℚ) / d ≤ (⌊x⌋ : ℚ) + 1 := by
    rw [div_le_iff₀ qd]; exact_mod_cast hdn
  have hv : (0 : ℚ) < (N : ℚ) / d := div_pos qN qd
  rw [abs_le]
  rcases le_or_lt 1 ⌊x⌋ with h1 | h1
  · rw [max_eq_right h1]
    constructor <;> linarith
  · rw [max_eq_left h1.le]
    have : (⌊x⌋ : ℚ) ≤ 0 := by
      have : ⌊x⌋ ≤ 0 := by omega
      exact_mod_cast this
    push_cast
    constructor <;> linarith

/-- The rounded product `maxHeight * aspectRatio` is within `1 / originalHeight` of the
exact proportional width. -/
theorem near_mul_of_relErr (rnd : ℚ → ℚ) (u : ℚ) (herr : RelErr rnd u) (hu0 : 0 ≤ u)
    (hu1 : u < 1) (ow oh mh : Int) (how : 0 < ow) (hoh : 0 < oh) (hmh : 0 < mh) (a : ℚ)
    (ha_le : a ≤ (1 + u) * ((ow : ℚ) / oh)) (ha_ge : (1 - u) * ((ow : ℚ) / oh) ≤ a)
    (d1 : (2 * u + u * u) * ((mh : ℚ) * ow) < 1) :
    |rnd (mh * a) - ((mh * ow : Int) : ℚ) / oh| < 1 / (oh : ℚ) := by
  have qow : (0 : ℚ) < ow := by exact_mod_cast how
  have qoh : (0 : ℚ) < oh := by exact_mod_cast hoh
  have qmh : (0 : ℚ) < mh := by exact_mod_cast hmh
  have h1u : 0 < 1 - u := by linarith
  have ha : 0 < a := lt_of_lt_of_le (mul_pos h1u (div_pos qow qoh)) ha_ge
  have hp : (0 : ℚ) < mh * a := mul_pos qmh ha
  have hP1 : rnd (mh * a) ≤ (1 + u) * (mh * a) := herr.le hp
  have hP2 : (1 - u) * (mh * a) ≤ rnd (mh * a) := herr.ge hp
  obtain ⟨v, hv⟩ : ∃ v : ℚ, v = (mh : ℚ) * ow / oh := ⟨_, rfl⟩
  have hvpos : 0 < v := by rw [hv]; positivity
  have hva_le : (mh : ℚ) * a ≤ (1 + u) * v := by
    calc (mh : ℚ) * a ≤ mh * ((1 + u) * ((ow : ℚ) / oh)) := by gcongr
      _ = (1 + u) * v := by rw [hv]; ring
  have hva_ge : (1 - u) * v ≤ (mh : ℚ) * a := by
    calc (1 - u) * v = mh * ((1 - u) * ((ow : ℚ) / oh)) := by rw [hv]; ring
      _ ≤ mh * a := by gcongr
  have hPu : rnd (mh * a) ≤ (1 + u) * ((1 + u) * v) := by
    calc rnd (mh * a) ≤ (1 + u) * (mh * a) := hP1
      _ ≤ (1 + u) * ((1 + u) * v) := by gcongr
  have hPl : (1 - u) * ((1 - u) * v) ≤ rnd (mh * a) := by
    calc (1 - u) * ((1 - u) * v) ≤ (1 - u) * (mh * a) := by gcongr
      _ ≤ rnd (mh * a) := hP2
  have hsmall : (2 * u + u * u) * v < 1 / (oh : ℚ) := by
    rw [lt_div_iff₀ qoh]
    have e : (2 * u + u * u) * v * oh = (2 * u + u * u) * ((mh : ℚ) * ow) := by
      rw [hv]; field_simp
    rw [e]; exact d1
  have e : ((mh * ow : Int) : ℚ) / oh = v := by rw [hv]; push_cast; ring
  rw [e, abs_lt]
  have huv : 0 ≤ u * v := mul_nonneg hu0 hvpos.le
  have huu : 0 ≤ u * u * v := mul_nonneg (mul_nonneg hu0 hu0) hvpos.le
  constructor
  · have e1 : (1 - u) * ((1 - u) * v) = v - 2 * u * v + u * u * v := by ring
    have e2 : (2 * u + u * u) * v = 2 * u * v + u * u * v := by ring
    linarith only [hPl, hsmall, huv, huu, e1, e2]
  · have e1 : (1 + u) * ((1 + u) * v) = v + 2 * u * v + u * u * v := by ring
    have e2 : (2 * u + u * u) * v = 2 * u * v + u * u * v := by ring
    linarith only [hPu, hsmall, e1, e2]

/-- The rounded quotient `maxWidth / aspectRatio` is within `1 / originalWidth` of the
exact proportional height. -/
theorem near_div_of_relErr (rnd : ℚ → ℚ) (u : ℚ) (herr : RelErr rnd u) (hu0 : 0 ≤ u)
    (hu1 : u < 1) (ow oh mw : Int) (how : 0 < ow) (hoh : 0 < oh) (hmw : 0 < mw) (a : ℚ)
    (ha_le : a ≤ (1 + u) * ((ow : ℚ) / oh)) (ha_ge : (1 - u) * ((ow : ℚ) / oh) ≤ a)
    (d2 : 2 * u * ((mw : ℚ) * oh) < 1 - u) :
    |rnd (mw / a) - ((mw * oh : Int) : ℚ) / ow| < 1 / (ow : ℚ) := by
  have qow : (0 : ℚ) < ow := by exact_mod_cast how
  have qoh : (0 : ℚ) < oh := by exact_mod_cast hoh
  have qmw : (0 : ℚ) < mw := by exact_mod_cast hmw
  have h1u : 0 < 1 - u := by linarith
  have h1pu : 0 < 1 + u := by linarith
  have ha : 0 < a := lt_of_lt_of_le (mul_pos h1u (div_pos qow qoh)) ha_ge
  have hp : (0 : ℚ) < mw / a := div_pos qmw ha
  have hQ1 : rnd (mw / a) ≤ (1 + u) * (mw / a) := herr.le hp
  have hQ2 : (1 - u) * (mw / a) ≤ rnd (mw / a) := herr.ge hp
  obtain ⟨w, hw⟩ : ∃ w : ℚ, w = (mw : ℚ) * oh / ow := ⟨_, rfl⟩
  have hwpos : 0 < w := by rw [hw]; positivity
  have hda_le : (mw : ℚ) / a ≤ w / (1 - u) := by
    rw [div_le_div_iff₀ ha h1u]
    have h1 : w * ((1 - u) * ((ow : ℚ) / oh)) ≤ w * a := by gcongr
    have e : w * ((1 - u) * ((ow : ℚ) / oh)) = mw * (1 - u) := by
      rw [hw]; field_simp; ring
    linarith only [h1, e]
  have hda_ge : w / (1 + u) ≤ (mw : ℚ) / a := by
    rw [div_le_div_iff₀ h1pu ha]
    have h1 : w * a ≤ w * ((1 + u) * ((ow : ℚ) / oh)) := by gcongr
    have e : w * ((1 + u) * ((ow : ℚ) / oh)) = mw * (1 + u) := by
      rw [hw]; field_simp; ring
    linarith only [h1, e]
  have hQu : rnd (mw / a) * (1 - u) ≤ (1 + u) * w := by
    have h1 : rnd (mw / a) ≤ (1 + u) * (w / (1 - u)) := by
      calc rnd (mw / a) ≤ (1 + u) * (mw / a) := hQ1
        _ ≤ (1 + u) * (w / (1 - u)) := by gcongr
    have e : (1 + u) * (w / (1 - u)) * (1 - u) = (1 + u) * w := by field_simp
    have h2 := mul_le_mul_of_nonneg_right h1 h1u.le
    linarith only [h2, e]
  have hQl : (1 - u) * w ≤ rnd (mw / a) * (1 + u) := by
    have h1 : (1 - u) * (w / (1 + u)) ≤ rnd (mw / a) := by
      calc (1 - u) * (w / (1 + u)) ≤ (1 - u) * (mw / a) := by gcongr
        _ ≤ rnd (mw / a) := hQ2
    have e : (1 - u) * (w / (1 + u)) * (1 + u) = (1 - u) * w := by field_simp
    have h2 := mul_le_mul_of_nonneg_right h1 h1pu.le
    linarith only [h2, e]
  have hsmall : 2 * u * w < (1 - u) * (1 / (ow : ℚ)) := by
    have e : (1 - u) * (1 / (ow : ℚ)) = (1 - u) / ow := by ring
    rw [e, lt_div_iff₀ qow]
    have e2 : 2 * u * w * ow = 2 * u * ((mw : ℚ) * oh) := by rw [hw]; field_simp
    rw [e2]; exact d2
  have e : ((mw * oh : Int) : ℚ) / ow = w := by rw [hw]; push_cast; ring
  rw [e, abs_lt]
  have hinv : (0 : ℚ) < 1 / (ow : ℚ) := by positivity
  constructor
  · by_contra hcon
    have hc := not_lt.mp hcon
    have hm : rnd (mw / a) * (1 + u) ≤ (w - 1 / (ow : ℚ)) * (1 + u) :=
      mul_le_mul_of_nonneg_right (by linarith only [hc]) h1pu.le
    have hui : 0 ≤ u * (1 / (ow : ℚ)) := mul_nonneg hu0 hinv.le
    linarith only [hm, hQl, hsmall, hui]
  · by_contra hcon
    have hc := not_lt.mp hcon
    have hm : (w + 1 / (ow : ℚ)) * (1 - u) ≤ rnd (mw / a) * (1 - u) :=
      mul_le_mul_of_nonneg_right (by linarith only [hc]) h1u.le
    linarith only [hm, hQu, hsmall]

/-- One dimension is the requested maximum and the other at most one pixel away from the
exact proportional value, for any rounding of small relative error. -/
theorem aspect_of_relErr (rnd : ℚ → ℚ) (u : ℚ) (conv : F64 → Int)
    (ow oh mw mh : Int)
    (how : 0 < ow) (hoh : 0 < oh) (hmw : 0 < mw) (hmh : 0 < mh)
    (h63a : mh * ow < 2 ^ 63) (h63b : mw * oh < 2 ^ 63)
    (row : rnd (ow : ℚ) = ow) (roh : rnd (oh : ℚ) = oh)
    (rmw : rnd (mw : ℚ) = mw) (rmh : rnd (mh : ℚ) = mh)
    (herr : RelErr rnd u) (hu0 : 0 ≤ u) (hu1 : u < 1)
    (d1 : (2 * u + u * u) * ((mh : ℚ) * ow) < 1)
    (d2 : 2 * u * ((mw : ℚ) * oh) < 1 - u) :
    ((thumbnailSize rnd conv ow oh mw mh).1 = mw ∧
      |((thumbnailSize rnd conv ow oh mw mh).2 : ℚ) - (mw : ℚ) * oh / ow| ≤ 1) ∨
    ((thumbnailSize rnd conv ow oh mw mh).2 = mh ∧
      |((thumbnailSize rnd conv ow oh mw mh).1 : ℚ) - (mh : ℚ) * ow / oh| ≤ 1) := by
  have qow : (0 : ℚ) < ow := by exact_mod_cast how
  have qoh : (0 : ℚ) < oh := by exact_mod_cast hoh
  have qmw : (0 : ℚ) < mw := by exact_mod_cast hmw
  have qmh : (0 : ℚ) < mh := by exact_mod_cast hmh
  have hq : (0 : ℚ) < (ow : ℚ) / oh := div_pos qow qoh
  have ha : 0 < rnd ((ow : ℚ) / oh) := herr.pos hu1 hq
  have ha_le : rnd ((ow : ℚ) / oh) ≤ (1 + u) * ((ow : ℚ) / oh) := herr.le hq
  have ha_ge : (1 - u) * ((ow : ℚ) / oh) ≤ rnd ((ow : ℚ) / oh) := herr.ge hq
  rw [thumbnailSize_pos rnd conv ow oh mw mh how hoh hmw hmh row roh rmw rmh ha.ne']
  by_cases h : rnd ((ow : ℚ) / oh) < rnd ((mw : ℚ) / mh)
  · simp only [h, if_true]
    right
    refine ⟨trivial, ?_⟩
    have hP0 : 0 < rnd (mh * rnd ((ow : ℚ) / oh)) := herr.pos hu1 (mul_pos qmh ha)
    have hnear := near_mul_of_relErr rnd u herr hu0 hu1 ow oh mh how hoh hmh _ ha_le ha_ge d1
    obtain ⟨hfl, hres⟩ := clamp_floor_near _ (mh * ow) oh hoh (mul_pos hmh how) hnear
    have hfl63 : ⌊rnd ((mh : ℚ) * rnd ((ow : ℚ) / oh))⌋ < 2 ^ 63 :=
      lt_of_le_of_lt ((le_mul_of_one_le_right (Int.floor_nonneg.mpr hP0.le) hoh).trans hfl) h63a
    rw [F64.toInt_fin_nonneg conv _ hP0.le hfl63]
    have e : ((mh * ow : Int) : ℚ) / oh = (mh : ℚ) * ow / oh := by push_cast; ring
    rw [e] at hres
    exact hres
  · simp only [h, if_false]
    left
    refine ⟨trivial, ?_⟩
    have hQ0 : 0 < rnd (mw / rnd ((ow : ℚ) / oh)) := herr.pos hu1 (div_pos qmw ha)
    have hnear := near_div_of_relErr rnd u herr hu0 hu1 ow oh mw how hoh hmw _ ha_le ha_ge d2
    obtain ⟨hfl, hres⟩ := clamp_floor_near _ (mw * oh) ow how (mul_pos hmw hoh) hnear
    have hfl63 : ⌊rnd ((mw : ℚ) / rnd ((ow : ℚ) / oh))⌋ < 2 ^ 63 :=
      lt_of_le_of_lt ((le_mul_of_one_le_right (Int.floor_nonneg.mpr hQ0.le) how).trans hfl) h63b
    rw [F64.toInt_fin_nonneg conv _ hQ0.le hfl63]
    have e : ((mw * oh : Int) : ℚ) / ow = (mw : ℚ) * oh / ow := by push_cast; ring
    rw [e] at hres
    exact hres

/-- In exact arithmetic the proportional dimension is within less than one pixel of the
exact proportional value. -/
theorem thumbnailSize_aspect_exact (conv : F64 → Int)
    (originalWidth originalHeight maxWidth maxHeight : Int)
    (how : 1 ≤ originalWidth) (hoh : 1 ≤ originalHeight)
    (hmw : 1 ≤ maxWidth) (hmh : 1 ≤ maxHeight)
    (hmw63 : maxWidth < 2 ^ 63) (hmh63 : maxHeight < 2 ^ 63) :
    ((thumbnailSize id conv originalWidth originalHeight maxWidth maxHeight).1 = maxWidth ∧
      |((thumbnailSize id conv originalWidth originalHeight maxWidth maxHeight).2 : ℚ)
        - (maxWidth : ℚ) * originalHeight / originalWidth| < 1) ∨
    ((thumbnailSize id conv originalWidth originalHeight maxWidth maxHeight).2 = maxHeight ∧
      |((thumbnailSize id conv originalWidth originalHeight maxWidth maxHeight).1 : ℚ)
        - (maxHeight : ℚ) * originalWidth / originalHeight| < 1) := by
  have qow : (0 : ℚ) < originalWidth := by exact_mod_cast (by omega : (0 : Int) < originalWidth)
  have qoh : (0 : ℚ) < originalHeight := by exact_mod_cast (by omega : (0 : Int) < originalHeight)
  have qmw : (0 : ℚ) < maxWidth := by exact_mod_cast (by omega : (0 : Int) < maxWidth)
  have qmh : (0 : ℚ) < maxHeight := by exact_mod_cast (by omega : (0 : Int) < maxHeight)
  have key : ∀ v : ℚ, 0 < v → ∀ b : Int, v ≤ b → b < 2 ^ 63 →
      |((max 1 (F64.toInt conv (F64.fin false v)) : Int) : ℚ) - v| < 1 := by
    intro v hv b hb hb63
    have hfl : (⌊v⌋ : ℚ) ≤ v := Int.floor_le v
    have hfu : v < ⌊v⌋ + 1 := Int.lt_floor_add_one v
    have hfb : ⌊v⌋ ≤ b := by
      have : (⌊v⌋ : ℚ) ≤ b := hfl.trans hb
      exact_mod_cast this
    rw [F64.toInt_fin_nonneg conv v hv.le (by omega), abs_lt]
    rcases le_or_lt 1 ⌊v⌋ with h1 | h1
    · rw [max_eq_right h1]
      constructor <;> linarith
    · rw [max_eq_left h1.le]
      have : (⌊v⌋ : ℚ) ≤ 0 := by
        have : ⌊v⌋ ≤ 0 := by omega
        exact_mod_cast this
      push_cast
      constructor <;> linarith
  rw [thumbnailSize_pos id conv originalWidth originalHeight maxWidth maxHeight (by omega)
    (by omega) (by omega) (by omega) rfl rfl rfl rfl (by simp only [id]; positivity)]
  simp only [id]
  by_cases h : (originalWidth : ℚ) / originalHeight < (maxWidth : ℚ) / maxHeight
  · rw [if_pos h]
    right
    refine ⟨rfl, ?_⟩
    show |((max 1 _ : Int) : ℚ) - _| < 1
    have hle : (maxHeight : ℚ) * ((originalWidth : ℚ) / originalHeight) ≤ maxWidth := by
      have := mul_lt_mul_of_pos_left h qmh
      have e : (maxHeight : ℚ) * ((maxWidth : ℚ) / maxHeight) = maxWidth := by field_simp
      linarith
    have := key _ (by positivity) maxWidth hle hmw63
    have e : (maxHeight : ℚ) * originalWidth / originalHeight =
        maxHeight * ((originalWidth : ℚ) / originalHeight) := by ring
    rw [e]
    exact this
  · rw [if_neg h]
    left
    refine ⟨rfl, ?_⟩
    show |((max 1 _ : Int) : ℚ) - _| < 1
    have hge : (maxWidth : ℚ) / maxHeight ≤ (originalWidth : ℚ) / originalHeight := not_lt.mp h
    have hle : (maxWidth : ℚ) / ((originalWidth : ℚ) / originalHeight) ≤ maxHeight := by
      rw [div_le_iff₀ (by positivity)]
      have := mul_le_mul_of_nonneg_left hge qmh.le
      have e : (maxHeight : ℚ) * ((maxWidth : ℚ) / maxHeight) = maxWidth := by field_simp
      linarith
    have := key _ (by positivity) maxHeight hle hmh63
    have e : (maxWidth : ℚ) * originalHeight / originalWidth =
        maxWidth / ((originalWidth : ℚ) / originalHeight) := by field_simp
    rw [e]
    exact this

/-! ## Concrete float64 values -/

/-- Binary64 `1920.0 / 1080.0 = 1.7777777777777777`. -/
theorem roundF64_16_9 : roundF64 (16 / 9) = 2001599834386887 / 1125899906842624 := by
  rw [roundF64_eq_of_near (16 / 9) 0 8006399337547548 (by norm_num) (by norm_num)
    (by rw [abs_lt]; norm_num)]
  norm_num

/-- Binary64 `200.0 / 1.7777777777777777 = 112.5`. -/
theorem roundF64_200_div : roundF64 (200 / (2001599834386887 / 1125899906842624)) = 225 / 2 := by
  rw [roundF64_eq_of_near _ 6 7916483719987200 (by norm_num) (by norm_num)
    (by rw [abs_lt]; norm_num)]
  norm_num

/-- Binary64 `1024.0 / 600.0 = 1.7066666666666668`. -/
theorem roundF64_128_75 :
    roundF64 (128 / 75) = 7686143364045647 / 4503599627370496 := by
  rw [roundF64_eq_of_near (128 / 75) 0 7686143364045647 (by norm_num) (by norm_num)
    (by rw [abs_lt]; norm_num)]
  norm_num

/-- Binary64 `384.0 / 1.7066666666666668 = 224.99999999999997`. -/
theorem roundF64_384_div :
    roundF64 (384 / (7686143364045647 / 4503599627370496)) =
      7916483719987199 / 35184372088832 := by
  rw [roundF64_eq_of_near _ 7 7916483719987199 (by norm_num) (by norm_num)
    (by rw [abs_lt]; norm_num)]
  norm_num

/-- Binary64: a 1920x1080 image and the request 200x200 give 200x112. -/
theorem thumbnailSize_roundF64_1080p (conv : F64 → Int) :
    thumbnailSize roundF64 conv 1920 1080 200 200 = (200, 112) := by
  have e1 : ((1920 : Int) : ℚ) / ((1080 : Int) : ℚ) = 16 / 9 := by norm_num
  have e2 : ((200 : Int) : ℚ) / ((200 : Int) : ℚ) = ((1 : Int) : ℚ) := by norm_num
  have r1 : roundF64 (((200 : Int) : ℚ) / ((200 : Int) : ℚ)) = 1 := by
    rw [e2, roundF64_intCast 1 (by norm_num) (by norm_num)]; norm_num
  rw [thumbnailSize_pos roundF64 conv 1920 1080 200 200 (by norm_num) (by norm_num)
    (by norm_num) (by norm_num) (roundF64_intCast 1920 (by norm_num) (by norm_num))
    (roundF64_intCast 1080 (by norm_num) (by norm_num))
    (roundF64_intCast 200 (by norm_num) (by norm_num))
    (roundF64_intCast 200 (by norm_num) (by norm_num))
    (by rw [e1, roundF64_16_9]; norm_num)]
  rw [r1, e1, roundF64_16_9]
  rw [if_neg (by norm_num)]
  have e3 : ((200 : Int) : ℚ) / (2001599834386887 / 1125899906842624) =
      200 / (2001599834386887 / 1125899906842624) := by norm_num
  rw [e3, roundF64_200_div]
  have hfl : ⌊(225 / 2 : ℚ)⌋ = 112 := by
    rw [Int.floor_eq_iff]; norm_num
  rw [F64.toInt_fin_nonneg conv _ (by norm_num) (by rw [hfl]; norm_num), hfl]
  rfl

/-- Exact arithmetic: a 1920x1080 image and the request 200x200 give 200x112. -/
theorem thumbnailSize_id_1080p (conv : F64 → Int) :
    thumbnailSize id conv 1920 1080 200 200 = (200, 112) := by
  rw [thumbnailSize_pos id conv 1920 1080 200 200 (by norm_num) (by norm_num)
    (by norm_num) (by norm_num) rfl rfl rfl rfl (by simp)]
  simp only [id]
  rw [if_neg (by norm_num)]
  have e3 : ((200 : Int) : ℚ) / (((1920 : Int) : ℚ) / ((1080 : Int) : ℚ)) = 225 / 2 := by
    norm_num
  have hfl : ⌊(225 / 2 : ℚ)⌋ = 112 := by
    rw [Int.floor_eq_iff]; norm_num
  rw [e3, F64.toInt_fin_nonneg conv _ (by norm_num) (by rw [hfl]; norm_num), hfl]
  rfl

/-- Binary64: a 1024x600 image and the request 384x384 give 384x224. -/
theorem thumbnailSize_roundF64_netbook (conv : F64 → Int) :
    thumbnailSize roundF64 conv 1024 600 384 384 = (384, 224) := by
  have e1 : ((1024 : Int) : ℚ) / ((600 : Int) : ℚ) = 128 / 75 := by norm_num
  have e2 : ((384 : Int) : ℚ) / ((384 : Int) : ℚ) = ((1 : Int) : ℚ) := by norm_num
  have r1 : roundF64 (((384 : Int) : ℚ) / ((384 : Int) : ℚ)) = 1 := by
    rw [e2, roundF64_intCast 1 (by norm_num) (by norm_num)]; norm_num
  rw [thumbnailSize_pos roundF64 conv 1024 600 384 384 (by norm_num) (by norm_num)
    (by norm_num) (by norm_num) (roundF64_intCast 1024 (by norm_num) (by norm_num))
    (roundF64_intCast 600 (by norm_num) (by norm_num))
    (roundF64_intCast 384 (by norm_num) (by norm_num))
    (roundF64_intCast 384 (by norm_num) (by norm_num))
    (by rw [e1, roundF64_128_75]; norm_num)]
  rw [r1, e1, roundF64_128_75]
  rw [if_neg (by norm_num)]
  have e3 : ((384 : Int) : ℚ) / (7686143364045647 / 4503599627370496) =
      384 / (7686143364045647 / 4503599627370496) := by norm_num
  rw [e3, roundF64_384_div]
  have hfl : ⌊(7916483719987199 / 35184372088832 : ℚ)⌋ = 224 := by
    rw [Int.floor_eq_iff]; norm_num
  rw [F64.toInt_fin_nonneg conv _ (by norm_num) (by rw [hfl]; norm_num), hfl]
  rfl

/-! ## Thumbnail size -/

/-- C1: in `CaptureDisplayThumbnail`, for every captured image with
`originalWidth ≥ 1` and `originalHeight ≥ 1` and every request with `maxWidth ≥ 1` and
`maxHeight ≥ 1` (values of Go's `int`), the computed size satisfies
`1 ≤ thumbWidth ≤ maxWidth` and `1 ≤ thumbHeight ≤ maxHeight`, the `int()` conversions
being truncations of the exact quotient and product. The same bounds hold under
binary64 rounding of every float64 operation when the four values are below `2 ^ 52`. -/
theorem thumbnailSize_within_max (conv : F64 → Int)
    (originalWidth originalHeight maxWidth maxHeight : Int)
    (how : 1 ≤ originalWidth) (hoh : 1 ≤ originalHeight)
    (hmw : 1 ≤ maxWidth) (hmh : 1 ≤ maxHeight)
    (hmw63 : maxWidth < 2 ^ 63) (hmh63 : maxHeight < 2 ^ 63) :
    (1 ≤ (thumbnailSize id conv originalWidth originalHeight maxWidth maxHeight).1 ∧
      (thumbnailSize id conv originalWidth originalHeight maxWidth maxHeight).1 ≤ maxWidth ∧
      1 ≤ (thumbnailSize id conv originalWidth originalHeight maxWidth maxHeight).2 ∧
      (thumbnailSize id conv originalWidth originalHeight maxWidth maxHeight).2 ≤ maxHeight) ∧
    (originalWidth < 2 ^ 52 → originalHeight < 2 ^ 52 → maxWidth < 2 ^ 52 →
      maxHeight < 2 ^ 52 →
      1 ≤ (thumbnailSize roundF64 conv originalWidth originalHeight maxWidth maxHeight).1 ∧
      (thumbnailSize roundF64 conv originalWidth originalHeight maxWidth maxHeight).1
        ≤ maxWidth ∧
      1 ≤ (thumbnailSize roundF64 conv originalWidth originalHeight maxWidth maxHeight).2 ∧
      (thumbnailSize roundF64 conv originalWidth originalHeight maxWidth maxHeight).2
        ≤ maxHeight) := by
  constructor
  · refine thumbnailSize_bounds_of_relErr id 0 conv originalWidth originalHeight maxWidth
      maxHeight (by omega) (by omega) (by omega) (by omega) hmw63 hmh63 rfl rfl rfl rfl
      relErr_id (le_refl _) (by norm_num) ?_ ?_
    · norm_num
    · have : (0 : ℚ) < maxHeight := by exact_mod_cast (by omega : (0 : Int) < maxHeight)
      linarith
  · intro b1 b2 b3 b4
    have qmw : (maxWidth : ℚ) ≤ 2 ^ 52 - 1 := by
      have : maxWidth ≤ 2 ^ 52 - 1 := by omega
      exact_mod_cast this
    have qmh : (maxHeight : ℚ) ≤ 2 ^ 52 - 1 := by
      have : maxHeight ≤ 2 ^ 52 - 1 := by omega
      exact_mod_cast this
    refine thumbnailSize_bounds_of_relErr roundF64 (1 / 2 ^ 53) conv originalWidth
      originalHeight maxWidth maxHeight (by omega) (by omega) (by omega) (by omega) hmw63 hmh63
      (roundF64_intCast _ (by omega) (by omega)) (roundF64_intCast _ (by omega) (by omega))
      (roundF64_intCast _ (by omega) (by omega)) (roundF64_intCast _ (by omega) (by omega))
      relErr_roundF64 (by norm_num) (by norm_num) ?_ ?_
    · norm_num at qmw ⊢
      linarith
    · norm_num at qmh ⊢
      linarith

/-- Witness for C1: a 1920x1080 image and the request 200x200. -/
theorem thumbnailSize_within_max_witness :
    (1 ≤ (thumbnailSize id (fun _ => 0) 1920 1080 200 200).1 ∧
      (thumbnailSize id (fun _ => 0) 1920 1080 200 200).1 ≤ 200 ∧
      1 ≤ (thumbnailSize id (fun _ => 0) 1920 1080 200 200).2 ∧
      (thumbnailSize id (fun _ => 0) 1920 1080 200 200).2 ≤ 200) ∧
    (1 ≤ (thumbnailSize roundF64 (fun _ => 0) 1920 1080 200 200).1 ∧
      (thumbnailSize roundF64 (fun _ => 0) 1920 1080 200 200).1 ≤ 200 ∧
      1 ≤ (thumbnailSize roundF64 (fun _ => 0) 1920 1080 200 200).2 ∧
      (thumbnailSize roundF64 (fun _ => 0) 1920 1080 200 200).2 ≤ 200) :=
  have key := thumbnailSize_within_max (fun _ => 0) 1920 1080 200 200 (by norm_num)
    (by norm_num) (by norm_num) (by norm_num) (by norm_num) (by norm_num)
  ⟨key.1, key.2 (by norm_num) (by norm_num) (by norm_num) (by norm_num)⟩

/-- Counterexample to C2: for a 1920x1080 source and the request 200x200 the computed
size is not 200x113, and `200/200 > 1920/1080` is false. -/
theorem thumbnail_1080p_not_200x113 :
    ¬ (∃ conv, thumbnailSize roundF64 conv 1920 1080 200 200 = (200, 113)) ∧
    ¬ (∃ conv, thumbnailSize id conv 1920 1080 200 200 = (200, 113)) ∧
    ¬ ((200 : ℚ) / 200 > 1920 / 1080) := by
  refine ⟨?_, ?_, by norm_num⟩
  · rintro ⟨conv, h⟩
    rw [thumbnailSize_roundF64_1080p] at h
    exact absurd h (by decide)
  · rintro ⟨conv, h⟩
    rw [thumbnailSize_id_1080p] at h
    exact absurd h (by decide)

/-- C2 (amended): for a 1920x1080 source image and the request `maxWidth = 200`,
`maxHeight = 200`, the size computed by `CaptureDisplayThumbnail` is 200x112, under
binary64 rounding and under exact arithmetic alike. The test
`200/200 > 1920/1080` is false, so the width stays at 200 and the height becomes
`int(200 / (1920/1080)) = int(112.5) = 112`. -/
theorem thumbnail_1080p_is_200x112 (conv : F64 → Int) :
    thumbnailSize roundF64 conv 1920 1080 200 200 = (200, 112) ∧
    thumbnailSize id conv 1920 1080 200 200 = (200, 112) ∧
    F64.gt (F64.div roundF64 (F64.ofInt roundF64 200) (F64.ofInt roundF64 200))
      (F64.div roundF64 (F64.ofInt roundF64 1920) (F64.ofInt roundF64 1080)) = false ∧
    F64.div roundF64 (F64.ofInt roundF64 200)
      (F64.div roundF64 (F64.ofInt roundF64 1920) (F64.ofInt roundF64 1080)) =
        F64.fin false (225 / 2) := by
  have e1 : ((1920 : Int) : ℚ) / ((1080 : Int) : ℚ) = 16 / 9 := by norm_num
  have e2 : ((200 : Int) : ℚ) / ((200 : Int) : ℚ) = ((1 : Int) : ℚ) := by norm_num
  have e3 : ((200 : Int) : ℚ) / (2001599834386887 / 1125899906842624) =
      200 / (2001599834386887 / 1125899906842624) := by norm_num
  have r200 := F64.ofInt_pos roundF64 200 (by norm_num)
    (roundF64_intCast 200 (by norm_num) (by norm_num))
  have r1920 := F64.ofInt_pos roundF64 1920 (by norm_num)
    (roundF64_intCast 1920 (by norm_num) (by norm_num))
  have r1080 := F64.ofInt_pos roundF64 1080 (by norm_num)
    (roundF64_intCast 1080 (by norm_num) (by norm_num))
  refine ⟨thumbnailSize_roundF64_1080p conv, thumbnailSize_id_1080p conv, ?_, ?_⟩
  · rw [r200, r1920, r1080]
    simp only [F64.div, F64.gt]
    rw [if_neg (by norm_num), if_neg (by norm_num), e1, e2, roundF64_16_9,
      roundF64_intCast 1 (by norm_num) (by norm_num)]
    simp only [Bool.xor_false, Bool.false_eq_true, if_false, decide_eq_false_iff_not, not_lt]
    norm_num
  · rw [r200, r1920, r1080, F64.div_fin _ _ _ _ _ (by norm_num), e1, roundF64_16_9,
      F64.div_fin _ _ _ _ _ (by norm_num), e3, roundF64_200_div]
    rfl

/-- Counterexample to C3: for a 1024x600 image and the request 384x384, binary64
arithmetic gives `1024/600 = 1.7066666666666668` and
`384 / 1.7066666666666668 = 224.99999999999997`, so the computed size is 384x224.
The height is not within less than one pixel of the exact proportional value
`384 * 600 / 1024 = 225`, and it is not `maxHeight`. -/
theorem thumbnailSize_aspect_not_strict :
    ¬ (∃ conv,
      (((thumbnailSize roundF64 conv 1024 600 384 384).1 = 384 ∧
          |((thumbnailSize roundF64 conv 1024 600 384 384).2 : ℚ) - 384 * 600 / 1024| < 1) ∨
        ((thumbnailSize roundF64 conv 1024 600 384 384).2 = 384 ∧
          |((thumbnailSize roundF64 conv 1024 600 384 384).1 : ℚ) - 384 * 1024 / 600| < 1))) := by
  rintro ⟨conv, h⟩
  rw [thumbnailSize_roundF64_netbook] at h
  rcases h with ⟨_, h2⟩ | ⟨h1, _⟩
  · norm_num at h2
  · exact absurd h1 (by decide)

/-- C3 (amended): under binary64 arithmetic, for `originalWidth`, `originalHeight`,
`maxWidth`, `maxHeight` all at least 1 and below `2 ^ 25`, either
`thumbWidth = maxWidth` and `|thumbHeight - maxWidth*originalHeight/originalWidth| ≤ 1`,
or `thumbHeight = maxHeight` and
`|thumbWidth - maxHeight*originalWidth/originalHeight| ≤ 1`: one dimension equals its
requested maximum and the other is at most one pixel away from the exact proportional
value, also when the 1-pixel clamp applies. -/
theorem thumbnailSize_aspect_within_one (conv : F64 → Int)
    (originalWidth originalHeight maxWidth maxHeight : Int)
    (how : 1 ≤ originalWidth) (hoh : 1 ≤ originalHeight)
    (hmw : 1 ≤ maxWidth) (hmh : 1 ≤ maxHeight)
    (bow : originalWidth < 2 ^ 25) (boh : originalHeight < 2 ^ 25)
    (bmw : maxWidth < 2 ^ 25) (bmh : maxHeight < 2 ^ 25) :
    ((thumbnailSize roundF64 conv originalWidth originalHeight maxWidth maxHeight).1 = maxWidth ∧
      |((thumbnailSize roundF64 conv originalWidth originalHeight maxWidth maxHeight).2 : ℚ)
        - (maxWidth : ℚ) * originalHeight / originalWidth| ≤ 1) ∨
    ((thumbnailSize roundF64 conv originalWidth originalHeight maxWidth maxHeight).2 = maxHeight ∧
      |((thumbnailSize roundF64 conv originalWidth originalHeight maxWidth maxHeight).1 : ℚ)
        - (maxHeight : ℚ) * originalWidth / originalHeight| ≤ 1) := by
  have p1 : maxHeight * originalWidth < 2 ^ 25 * 2 ^ 25 :=
    mul_lt_mul'' bmh bow (by omega) (by omega)
  have p2 : maxWidth * originalHeight < 2 ^ 25 * 2 ^ 25 :=
    mul_lt_mul'' bmw boh (by omega) (by omega)
  have q1 : (maxHeight : ℚ) * originalWidth < 2 ^ 25 * 2 ^ 25 := by exact_mod_cast p1
  have q2 : (maxWidth : ℚ) * originalHeight < 2 ^ 25 * 2 ^ 25 := by exact_mod_cast p2
  refine aspect_of_relErr roundF64 (1 / 2 ^ 53) conv originalWidth
    originalHeight maxWidth maxHeight (by omega) (by omega) (by omega) (by omega)
    (lt_trans p1 (by norm_num)) (lt_trans p2 (by norm_num))
    (roundF64_intCast _ (by omega) (by omega)) (roundF64_intCast _ (by omega) (by omega))
    (roundF64_intCast _ (by omega) (by omega)) (roundF64_intCast _ (by omega) (by omega))
    relErr_roundF64 (by norm_num) (by norm_num) ?_ ?_
  · norm_num at q1 ⊢
    linarith
  · norm_num at q2 ⊢
    linarith

/-- Witness for C3 (amended): the 1024x600 image with the request 384x384, where the
height is exactly one pixel below the proportional value 225. -/
theorem thumbnailSize_aspect_within_one_witness :
    ((thumbnailSize roundF64 (fun _ => 0) 1024 600 384 384).1 = 384 ∧
      |((thumbnailSize roundF64 (fun _ => 0) 1024 600 384 384).2 : ℚ)
        - ((384 : Int) : ℚ) * ((600 : Int) : ℚ) / ((1024 : Int) : ℚ)| ≤ 1) ∨
    ((thumbnailSize roundF64 (fun _ => 0) 1024 600 384 384).2 = 384 ∧
      |((thumbnailSize roundF64 (fun _ => 0) 1024 600 384 384).1 : ℚ)
        - ((384 : Int) : ℚ) * ((1024 : Int) : ℚ) / ((600 : Int) : ℚ)| ≤ 1) :=
  thumbnailSize_aspect_within_one (fun _ => 0) 1024 600 384 384 (by norm_num) (by norm_num)
    (by norm_num) (by norm_num) (by norm_num) (by norm_num) (by norm_num) (by norm_num)

/-! ## Running the operations -/

/-- A failing PNG encoder makes `encodeImage` return nil and the encoder's error. -/
theorem encodeImage_error (env : Env) (img : RGBA) (e : Error)
    (h : env.pngEncode img = .error e) : encodeImage env img = (none, some e) := by
  simp [encodeImage, h]

/-- On success `encodeImage` reports the dimensions of the image it was given. -/
theorem encodeImage_ok (env : Env) (img : RGBA) (buf : List Nat)
    (h : env.pngEncode img = .ok buf) :
    encodeImage env img =
      (some { Width := img.Bounds.Dx, Height := img.Bounds.Dy, Data := env.base64 buf }, none) := by
  simp [encodeImage, h]

/-- Result and trace of `CaptureRegion`. -/
theorem CaptureRegion_run (env : Env) (x y width height : Int) (tr : List Call) :
    (CaptureRegion env x y width height).run tr =
      ((match env.Capture x y width height with
        | .error err => (none, some err)
        | .ok img => encodeImage env img), tr ++ [Call.Capture x y width height]) := by
  unfold CaptureRegion
  cases h : env.Capture x y width height <;> rfl

/-- Result and trace of `CaptureDisplay`. -/
theorem CaptureDisplay_run (env : Env) (displayIndex : Int) (tr : List Call) :
    (CaptureDisplay env displayIndex).run tr =
      ((match env.CaptureRect (env.GetDisplayBounds displayIndex) with
        | .error err => (none, some err)
        | .ok img => encodeImage env img),
       tr ++ [Call.CaptureRect (env.GetDisplayBounds displayIndex)]) := by
  unfold CaptureDisplay
  cases h : env.CaptureRect (env.GetDisplayBounds displayIndex) <;> simp [h] <;> rfl

/-- Result and trace of `CaptureDisplayThumbnail`. -/
theorem CaptureDisplayThumbnail_run (rnd : ℚ → ℚ) (conv : F64 → Int) (env : Env)
    (displayIndex maxWidth maxHeight : Int) (tr : List Call) :
    (CaptureDisplayThumbnail rnd conv env displayIndex maxWidth maxHeight).run tr =
      ((match env.CaptureRect (env.GetDisplayBounds displayIndex) with
        | .error err => (none, some err)
        | .ok img =>
          encodeImage env
            { NewRGBA (imageRect 0 0
                (thumbnailSize rnd conv img.Bounds.Dx img.Bounds.Dy maxWidth maxHeight).1
                (thumbnailSize rnd conv img.Bounds.Dx img.Bounds.Dy maxWidth maxHeight).2) with
              Pix := env.catmullRomScale
                (NewRGBA (imageRect 0 0
                  (thumbnailSize rnd conv img.Bounds.Dx img.Bounds.Dy maxWidth maxHeight).1
                  (thumbnailSize rnd conv img.Bounds.Dx img.Bounds.Dy maxWidth maxHeight).2))
                img }),
       tr ++ [Call.CaptureRect (env.GetDisplayBounds displayIndex)]) := by
  unfold CaptureDisplayThumbnail
  cases h : env.CaptureRect (env.GetDisplayBounds displayIndex) <;>
    simp [h, emit, StateT.run, bind, StateT.bind, modify, modifyGet,
      MonadStateOf.modifyGet, StateT.modifyGet, pure, StateT.pure]

/-- Result and trace of `GetMonitorAtCursor`. -/
theorem GetMonitorAtCursor_run (env : Env) (tr : List Call) :
    (GetMonitorAtCursor env).run tr =
      (monitorScan env (cursorOf env).1 (cursorOf env).2 env.NumActiveDisplays.toNat 0,
        tr ++ [Call.GetCursorPos]) := rfl

/-- Result and trace of `CaptureFullscreen`. -/
theorem CaptureFullscreen_run (env : Env) (tr : List Call) :
    (CaptureFullscreen env).run tr =
      ((match env.CaptureRect (env.GetDisplayBounds (exec (GetMonitorAtCursor env)).1) with
        | .error err => (none, some err)
        | .ok img => encodeImage env img),
       tr ++ [Call.GetCursorPos,
         Call.CaptureRect (env.GetDisplayBounds (exec (GetMonitorAtCursor env)).1)]) := by
  unfold CaptureFullscreen
  simp only [StateT.run_bind, GetMonitorAtCursor_run]
  unfold exec
  rw [GetMonitorAtCursor_run]
  cases h : env.CaptureRect (env.GetDisplayBounds
      (monitorScan env (cursorOf env).1 (cursorOf env).2 env.NumActiveDisplays.toNat 0)) <;>
    simp [h, emit, StateT.run, bind, StateT.bind, modify, modifyGet,
      MonadStateOf.modifyGet, StateT.modifyGet, pure, StateT.pure]

/-- Result and trace of `CaptureActiveDisplay`. -/
theorem CaptureActiveDisplay_run (env : Env) (tr : List Call) :
    (CaptureActiveDisplay env).run tr =
      ((match env.CaptureRect (env.GetDisplayBounds (exec (GetMonitorAtCursor env)).1) with
        | .error err => (none, (exec (GetMonitorAtCursor env)).1, some err)
        | .ok img => ((encodeImage env img).1, (exec (GetMonitorAtCursor env)).1,
            (encodeImage env img).2)),
       tr ++ [Call.GetCursorPos,
         Call.CaptureRect (env.GetDisplayBounds (exec (GetMonitorAtCursor env)).1)]) := by
  unfold CaptureActiveDisplay
  simp only [StateT.run_bind, GetMonitorAtCursor_run]
  unfold exec
  rw [GetMonitorAtCursor_run]
  cases h : env.CaptureRect (env.GetDisplayBounds
      (monitorScan env (cursorOf env).1 (cursorOf env).2 env.NumActiveDisplays.toNat 0)) <;>
    simp [h, emit, StateT.run, bind, StateT.bind, modify, modifyGet,
      MonadStateOf.modifyGet, StateT.modifyGet, pure, StateT.pure]

/-- Trace of `bringWindowToForeground`. -/
theorem bringWindowToForeground_run (env : Env) (hwnd : Nat) (tr : List Call) :
    (bringWindowToForeground env hwnd).run tr =
      ((), tr ++ [Call.IsIconic hwnd] ++
        (if env.IsIconic hwnd ≠ 0 then [Call.ShowWindow hwnd SW_RESTORE] else []) ++
        [Call.BringWindowToTop hwnd, Call.SetForegroundWindow hwnd, Call.Sleep 100]) := by
  unfold bringWindowToForeground
  by_cases h : env.IsIconic hwnd = 0 <;>
    simp [h, emit, StateT.run, bind, StateT.bind, modify, modifyGet, MonadStateOf.modifyGet,
      StateT.modifyGet, pure, StateT.pure]

/-- The foreground coercion makes no grab. -/
theorem bringWindowToForeground_noGrab (env : Env) (hwnd : Nat) :
    ∀ c ∈ ((bringWindowToForeground env hwnd).run []).2, c.isGrab = false := by
  rw [bringWindowToForeground_run]
  intro c hc
  simp only [List.nil_append, List.mem_append, List.mem_singleton, List.mem_cons,
    List.mem_nil_iff, or_false] at hc
  rcases hc with (rfl | hc) | rfl | rfl | rfl
  · rfl
  · split_ifs at hc
    · simp only [List.mem_singleton] at hc
      rw [hc]; rfl
    · simp at hc
  · rfl
  · rfl
  · rfl

/-- Result and trace of the rectangle resolution in full-window mode. -/
theorem resolveWindowRect_full_run (env : Env) (hwnd : Nat) (tr : List Call) :
    (resolveWindowRect env hwnd false).run tr =
      (((fullWindowRECT env hwnd).Left, (fullWindowRECT env hwnd).Top,
        sub32 (fullWindowRECT env hwnd).Right (fullWindowRECT env hwnd).Left,
        sub32 (fullWindowRECT env hwnd).Bottom (fullWindowRECT env hwnd).Top),
       tr ++ fullWindowCalls env hwnd) := by
  unfold resolveWindowRect fullWindowRECT fullWindowCalls
  cases hl : env.dwmapiLoad <;> cases hf : env.dwmFind <;>
    by_cases hr : (env.DwmGetWindowAttribute hwnd DWMWA_EXTENDED_FRAME_BOUNDS ⟨0, 0, 0, 0⟩ 16).1 = 0 <;>
    simp [hl, hf, hr, emit, StateT.run, bind, StateT.bind, modify, modifyGet,
      MonadStateOf.modifyGet, StateT.modifyGet, pure, StateT.pure]

/-- Result and trace of the rectangle resolution in client-area mode. -/
theorem resolveWindowRect_client_run (env : Env) (hwnd : Nat) (tr : List Call) :
    (resolveWindowRect env hwnd true).run tr =
      (((env.ClientToScreen hwnd ⟨0, 0⟩).X, (env.ClientToScreen hwnd ⟨0, 0⟩).Y,
        sub32 (env.GetClientRect hwnd ⟨0, 0, 0, 0⟩).Right (env.GetClientRect hwnd ⟨0, 0, 0, 0⟩).Left,
        sub32 (env.GetClientRect hwnd ⟨0, 0, 0, 0⟩).Bottom (env.GetClientRect hwnd ⟨0, 0, 0, 0⟩).Top),
       tr ++ [Call.GetClientRect hwnd, Call.ClientToScreen hwnd]) := by
  unfold resolveWindowRect
  simp [emit, StateT.run, bind, StateT.bind, modify, modifyGet,
      MonadStateOf.modifyGet, StateT.modifyGet, pure, StateT.pure]

/-- The rectangle resolution makes no grab. -/
theorem resolveWindowRect_noGrab (env : Env) (hwnd : Nat) (excludeTitleBar : Bool)
    (tr : List Call) (h : ∀ c ∈ tr, c.isGrab = false) :
    ∀ c ∈ ((resolveWindowRect env hwnd excludeTitleBar).run tr).2, c.isGrab = false := by
  cases excludeTitleBar
  · rw [resolveWindowRect_full_run]
    intro c hc
    rcases List.mem_append.mp hc with hc | hc
    · exact h c hc
    · unfold fullWindowCalls at hc
      simp only at hc
      split_ifs at hc <;> simp at hc <;> rcases hc with rfl | rfl <;> rfl
  · rw [resolveWindowRect_client_run]
    intro c hc
    rcases List.mem_append.mp hc with hc | hc
    · exact h c hc
    · simp at hc
      rcases hc with rfl | rfl <;> rfl

/-- The run of `CaptureWindowByCoords` split at the validation. -/
theorem CaptureWindowByCoords_run (env : Env) (hwnd : Nat) (excludeTitleBar : Bool)
    (tr : List Call) :
    (CaptureWindowByCoords env hwnd excludeTitleBar).run tr =
      (let pre := (resolveWindowRect env hwnd excludeTitleBar).run
          ((bringWindowToForeground env hwnd).run tr).2
       if pre.1.2.2.1 ≤ 0 ∨ pre.1.2.2.2 ≤ 0 then ((none, none), pre.2)
       else (CaptureRegion env pre.1.1 pre.1.2.1 pre.1.2.2.1 pre.1.2.2.2).run pre.2) := by
  unfold CaptureWindowByCoords
  simp only [StateT.run_bind]
  simp only [StateT.run, bind, StateT.bind, pure, StateT.pure, Id.run]
  split_ifs with h1 <;> rfl

/-- A value inside the `int32` range is not changed by the wrap. -/
theorem wrap32_of_fits (z : Int) (h1 : -2 ^ 31 ≤ z) (h2 : z < 2 ^ 31) : wrap32 z = z := by
  unfold wrap32
  omega

/-- A successful `CaptureDisplayThumbnail` reports exactly the computed thumbnail
size. -/
theorem CaptureDisplayThumbnail_dimensions (rnd : ℚ → ℚ) (conv : F64 → Int) (env : Env)
    (displayIndex maxWidth maxHeight : Int) (img : RGBA) (res : CaptureResult)
    (himg : env.CaptureRect (GetDisplayBounds env displayIndex) = .ok img)
    (hres : (exec (CaptureDisplayThumbnail rnd conv env displayIndex maxWidth maxHeight)).1 =
      (some res, none)) :
    res.Width = (thumbnailSize rnd conv img.Bounds.Dx img.Bounds.Dy maxWidth maxHeight).1 ∧
    res.Height = (thumbnailSize rnd conv img.Bounds.Dx img.Bounds.Dy maxWidth maxHeight).2 := by
  have hge := thumbnailSize_ge_one rnd conv img.Bounds.Dx img.Bounds.Dy maxWidth maxHeight
  have hres2 : ((CaptureDisplayThumbnail rnd conv env displayIndex maxWidth maxHeight).run []).1 =
      (some res, none) := hres
  rw [CaptureDisplayThumbnail_run] at hres2
  simp only [GetDisplayBounds] at himg
  simp only [himg] at hres2
  generalize thumbnailSize rnd conv img.Bounds.Dx img.Bounds.Dy maxWidth maxHeight = s at *
  unfold encodeImage at hres2
  split at hres2
  · simp at hres2
  · have hr := congrArg Prod.fst hres2
    simp only [Option.some.injEq] at hr
    rw [← hr]
    simp only [RGBA.Bounds, NewRGBA, imageRect, Rectangle.Dx, Rectangle.Dy]
    rw [if_neg (by omega), if_neg (by omega)]
    simp

/-! ## Display at the cursor -/

/-- The loop returns the first index from `i` on whose bounds hold the cursor, or 0 when
none of the `k` displays from `i` on does. -/
theorem monitorScan_spec (env : Env) (cx cy : Int) : ∀ (k : Nat) (i : Int),
    (i ≤ monitorScan env cx cy k i ∧ monitorScan env cx cy k i < i + k ∧
      inBounds (env.GetDisplayBounds (monitorScan env cx cy k i)) cx cy ∧
      ∀ j, i ≤ j → j < monitorScan env cx cy k i → ¬ inBounds (env.GetDisplayBounds j) cx cy) ∨
    ((∀ j, i ≤ j → j < i + k → ¬ inBounds (env.GetDisplayBounds j) cx cy) ∧
      monitorScan env cx cy k i = 0) := by
  intro k
  induction k with
  | zero =>
    intro i
    right
    refine ⟨fun j h1 h2 => ?_, rfl⟩
    simp only [Nat.cast_zero, add_zero] at h2
    omega
  | succ k ih =>
    intro i
    by_cases hin : inBounds (env.GetDisplayBounds i) cx cy
    · left
      have hs : monitorScan env cx cy (k + 1) i = i := by
        have hin2 := hin
        unfold inBounds at hin2
        simp only [monitorScan, GetDisplayBounds, ge_iff_le]
        rw [if_pos hin2]
      rw [hs]
      refine ⟨le_refl _, by push_cast; omega, hin, fun j h1 h2 => ?_⟩
      omega
    · have hs : monitorScan env cx cy (k + 1) i = monitorScan env cx cy k (i + 1) := by
        have hin2 := hin
        unfold inBounds at hin2
        simp only [monitorScan, GetDisplayBounds, ge_iff_le]
        rw [if_neg hin2]
      rw [hs]
      rcases ih (i + 1) with ⟨h1, h2, h3, h4⟩ | ⟨h1, h2⟩
      · left
        refine ⟨by omega, by push_cast; omega, h3, fun j hj1 hj2 => ?_⟩
        rcases eq_or_lt_of_le hj1 with rfl | hlt
        · exact hin
        · exact h4 j (by omega) hj2
      · right
        refine ⟨fun j hj1 hj2 => ?_, h2⟩
        rcases eq_or_lt_of_le hj1 with rfl | hlt
        · exact hin
        · exact h1 j (by omega) (by push_cast at hj2; omega)

/-- C4: `GetMonitorAtCursor` always returns (it is a total function with no error
result): either an index `i` with `0 ≤ i < GetDisplayCount()` whose bounds hold the
cursor (`Min.X ≤ cursorX < Max.X` and `Min.Y ≤ cursorY < Max.Y`), or 0 when no display
holds the cursor. With the single display `(0,0)-(1920,1080)` and the cursor at
`(500,300)` it returns that display's index, 0. -/
theorem GetMonitorAtCursor_index (env : Env) :
    ((0 ≤ (exec (GetMonitorAtCursor env)).1 ∧
        (exec (GetMonitorAtCursor env)).1 < GetDisplayCount env ∧
        inBounds (GetDisplayBounds env (exec (GetMonitorAtCursor env)).1)
          (cursorOf env).1 (cursorOf env).2) ∨
      ((∀ i, 0 ≤ i → i < GetDisplayCount env →
          ¬ inBounds (GetDisplayBounds env i) (cursorOf env).1 (cursorOf env).2) ∧
        (exec (GetMonitorAtCursor env)).1 = 0)) ∧
    (GetDisplayCount deskEnv = 1 ∧ GetDisplayBounds deskEnv 0 = ⟨⟨0, 0⟩, ⟨1920, 1080⟩⟩ ∧
      cursorOf deskEnv = (500, 300) ∧ (exec (GetMonitorAtCursor deskEnv)).1 = 0) := by
  constructor
  · unfold exec
    rw [GetMonitorAtCursor_run]
    simp only [GetDisplayCount, GetDisplayBounds]
    rcases monitorScan_spec env (cursorOf env).1 (cursorOf env).2
        env.NumActiveDisplays.toNat 0 with ⟨h1, h2, h3, _⟩ | ⟨h1, h2⟩
    · left
      refine ⟨h1, ?_, h3⟩
      have := Int.toNat_of_nonneg (a := env.NumActiveDisplays)
      omega
    · right
      refine ⟨fun i hi1 hi2 => h1 i hi1 ?_, h2⟩
      have := Int.toNat_of_nonneg (a := env.NumActiveDisplays)
      omega
  · refine ⟨rfl, by decide, rfl, by decide⟩

/-- C10: whenever some display's bounds hold the cursor (half-open test on both axes),
`GetMonitorAtCursor` returns the smallest such index: the returned display holds the
cursor and no display with a lower index does. So of overlapping displays the lowest
index wins, and the returned index is never that of a display on whose `Max.X` or
`Max.Y` edge the cursor lies. -/
theorem GetMonitorAtCursor_lowest (env : Env)
    (h : ∃ i, 0 ≤ i ∧ i < GetDisplayCount env ∧
      inBounds (GetDisplayBounds env i) (cursorOf env).1 (cursorOf env).2) :
    0 ≤ (exec (GetMonitorAtCursor env)).1 ∧
    (exec (GetMonitorAtCursor env)).1 < GetDisplayCount env ∧
    inBounds (GetDisplayBounds env (exec (GetMonitorAtCursor env)).1)
      (cursorOf env).1 (cursorOf env).2 ∧
    (∀ j, 0 ≤ j → j < (exec (GetMonitorAtCursor env)).1 →
      ¬ inBounds (GetDisplayBounds env j) (cursorOf env).1 (cursorOf env).2) ∧
    (∀ j, (cursorOf env).1 = (GetDisplayBounds env j).Max.X ∨
        (cursorOf env).2 = (GetDisplayBounds env j).Max.Y →
      (exec (GetMonitorAtCursor env)).1 ≠ j) := by
  obtain ⟨i, hi0, hi1, hi2⟩ := h
  unfold exec
  rw [GetMonitorAtCursor_run]
  simp only [GetDisplayCount, GetDisplayBounds] at *
  have hn := Int.toNat_of_nonneg (a := env.NumActiveDisplays)
  rcases monitorScan_spec env (cursorOf env).1 (cursorOf env).2
      env.NumActiveDisplays.toNat 0 with ⟨h1, h2, h3, h4⟩ | ⟨h1, _⟩
  · refine ⟨h1, by omega, h3, h4, ?_⟩
    intro j hj hEq
    rw [hEq] at h3
    unfold inBounds at h3
    rcases hj with hj | hj <;> omega
  · exact absurd hi2 (h1 i hi0 (by omega))

/-- Witness for C10: two overlapping displays both hold the cursor `(1500,300)`. -/
theorem GetMonitorAtCursor_lowest_witness :
    (∃ i, 0 ≤ i ∧ i < GetDisplayCount overlapEnv ∧
      inBounds (GetDisplayBounds overlapEnv i) (cursorOf overlapEnv).1 (cursorOf overlapEnv).2) ∧
    inBounds (GetDisplayBounds overlapEnv 1) (cursorOf overlapEnv).1 (cursorOf overlapEnv).2 ∧
    (exec (GetMonitorAtCursor overlapEnv)).1 = 0 := by
  have h : ∃ i, 0 ≤ i ∧ i < GetDisplayCount overlapEnv ∧
      inBounds (GetDisplayBounds overlapEnv i) (cursorOf overlapEnv).1 (cursorOf overlapEnv).2 :=
    ⟨1, by decide, by decide, by decide⟩
  have key := GetMonitorAtCursor_lowest overlapEnv h
  refine ⟨h, by decide, ?_⟩
  have h0 : inBounds (GetDisplayBounds overlapEnv 0) (cursorOf overlapEnv).1
      (cursorOf overlapEnv).2 := by decide
  by_contra hne
  have hpos : 0 < (exec (GetMonitorAtCursor overlapEnv)).1 := lt_of_le_of_ne key.1 (Ne.symm hne)
  exact key.2.2.2.1 0 (le_refl _) hpos h0

/-! ## Capture operations -/

/-- Counterexample to C5: with a grab that returns a one-pixel image for the request
`(0, 0, 0, 0)`, `CaptureRegion(0, 0, 0, 0)` succeeds, so failure for `width ≤ 0` or
`height ≤ 0` does not hold whatever the grab call does. -/
theorem CaptureRegion_nonpositive_succeeds :
    (exec (CaptureRegion lenientEnv 0 0 0 0)).1 =
        (some { Width := 1, Height := 1, Data := "" }, none) ∧
    ¬ (∀ (env : Env) (x y width height : Int), width ≤ 0 ∨ height ≤ 0 →
        ∃ e, (exec (CaptureRegion env x y width height)).1 = (none, some e)) := by
  have h : (exec (CaptureRegion lenientEnv 0 0 0 0)).1 =
      (some { Width := 1, Height := 1, Data := "" }, none) := by decide
  refine ⟨h, fun hall => ?_⟩
  obtain ⟨e, he⟩ := hall lenientEnv 0 0 0 0 (Or.inl (le_refl _))
  rw [h] at he
  simp at he

/-- C5 (amended): `CaptureRegion` makes no check of `width` and `height`. For all
arguments, also with `width ≤ 0` or `height ≤ 0`, it makes the one grab call
`Capture(x, y, width, height)`; it returns nil with the error `e` when the grab returns
`e` or when the grab returns an image whose PNG encoding fails with `e`; otherwise it
succeeds with the dimensions of the grabbed image. Hence, if the PNG encoder rejects
every image with a non-positive width or height, a successful result never describes
an empty image. -/
theorem CaptureRegion_outcome (env : Env) (x y width height : Int) :
    (exec (CaptureRegion env x y width height)).2 = [Call.Capture x y width height] ∧
    (∀ e, env.Capture x y width height = .error e →
      (exec (CaptureRegion env x y width height)).1 = (none, some e)) ∧
    (∀ img e, env.Capture x y width height = .ok img → env.pngEncode img = .error e →
      (exec (CaptureRegion env x y width height)).1 = (none, some e)) ∧
    (∀ img buf, env.Capture x y width height = .ok img → env.pngEncode img = .ok buf →
      (exec (CaptureRegion env x y width height)).1 =
        (some { Width := img.Bounds.Dx, Height := img.Bounds.Dy, Data := env.base64 buf },
          none)) ∧
    ((∀ img, img.Bounds.Dx ≤ 0 ∨ img.Bounds.Dy ≤ 0 → ∃ e, env.pngEncode img = .error e) →
      ∀ res, (exec (CaptureRegion env x y width height)).1 = (some res, none) →
        1 ≤ res.Width ∧ 1 ≤ res.Height) := by
  unfold exec
  rw [CaptureRegion_run]
  refine ⟨rfl, ?_, ?_, ?_, ?_⟩
  · intro e he
    simp only [he]
  · intro img e hi he
    simp only [hi]
    exact encodeImage_error env img e he
  · intro img buf hi hb
    simp only [hi]
    exact encodeImage_ok env img buf hb
  · intro hpng res hres
    cases hi : env.Capture x y width height with
    | error e =>
      simp only [hi] at hres
      exact absurd hres (by simp)
    | ok img =>
      simp only [hi] at hres
      cases hb : env.pngEncode img with
      | error e =>
        rw [encodeImage_error env img e hb] at hres
        exact absurd hres (by simp)
      | ok buf =>
        rw [encodeImage_ok env img buf hb] at hres
        have hr := congrArg Prod.fst hres
        simp only [Option.some.injEq] at hr
        by_contra hcon
        have hempty : img.Bounds.Dx ≤ 0 ∨ img.Bounds.Dy ≤ 0 := by
          rw [← hr] at hcon
          simp only at hcon
          omega
        obtain ⟨e, he⟩ := hpng img hempty
        rw [he] at hb
        exact absurd hb (by simp)

/-- Witness for C5 (amended): a request of width 0 whose grab returns an image without
pixels fails in the PNG encoder. -/
theorem CaptureRegion_outcome_witness :
    (exec (CaptureRegion deskEnv 10 20 0 5)).1 = (none, some ⟨"png: invalid image size"⟩) :=
  (CaptureRegion_outcome deskEnv 10 20 0 5).2.2.1 (blankImage 0 5)
    ⟨"png: invalid image size"⟩ rfl rfl

/-- `CaptureDisplay` makes the one grab call `CaptureRect(GetDisplayBounds(index))`,
without a range check of its own; it returns nil with the error `e` when the grab
returns `e` or when PNG encoding of the grabbed image fails with `e`, and succeeds with
the dimensions of the grabbed image otherwise. -/
theorem CaptureDisplay_outcome (env : Env) (displayIndex : Int) :
    (exec (CaptureDisplay env displayIndex)).2 =
      [Call.CaptureRect (GetDisplayBounds env displayIndex)] ∧
    (∀ e, env.CaptureRect (GetDisplayBounds env displayIndex) = .error e →
      (exec (CaptureDisplay env displayIndex)).1 = (none, some e)) ∧
    (∀ img e, env.CaptureRect (GetDisplayBounds env displayIndex) = .ok img →
      env.pngEncode img = .error e →
      (exec (CaptureDisplay env displayIndex)).1 = (none, some e)) ∧
    (∀ img buf, env.CaptureRect (GetDisplayBounds env displayIndex) = .ok img →
      env.pngEncode img = .ok buf →
      (exec (CaptureDisplay env displayIndex)).1 =
        (some { Width := img.Bounds.Dx, Height := img.Bounds.Dy, Data := env.base64 buf },
          none)) := by
  unfold exec
  rw [CaptureDisplay_run]
  simp only [GetDisplayBounds]
  refine ⟨rfl, ?_, ?_, ?_⟩
  · intro e he
    simp only [he]
  · intro img e hi he
    simp only [hi]
    exact encodeImage_error env img e he
  · intro img buf hi hb
    simp only [hi]
    exact encodeImage_ok env img buf hb

/-- C6: for every display index that is out of range (`index < 0` or
`index ≥ GetDisplayCount()`), `CaptureDisplay(index)` fails: it returns a nil result and
a non-nil error, after the one grab call `CaptureRect(GetDisplayBounds(index))`.
`CaptureDisplay` has no range check of its own; the failure rests on the behaviour of
the screen-grab library and of the PNG encoder, which enters as three hypotheses:
`hbounds`, for an index out of range the library reports a well-formed rectangle
without area; `hsize`, an image grabbed for a well-formed rectangle has the size of that
rectangle; `hpng`, the encoder rejects every image of non-positive width or height. -/
theorem CaptureDisplay_outOfRange_fails (env : Env) (displayIndex : Int)
    (hbounds : ∀ i, i < 0 ∨ GetDisplayCount env ≤ i →
      0 ≤ (GetDisplayBounds env i).Dx ∧ 0 ≤ (GetDisplayBounds env i).Dy ∧
      ((GetDisplayBounds env i).Dx = 0 ∨ (GetDisplayBounds env i).Dy = 0))
    (hsize : ∀ r img, 0 ≤ r.Dx → 0 ≤ r.Dy → env.CaptureRect r = .ok img →
      img.Bounds.Dx = r.Dx ∧ img.Bounds.Dy = r.Dy)
    (hpng : ∀ img, img.Bounds.Dx ≤ 0 ∨ img.Bounds.Dy ≤ 0 → ∃ e, env.pngEncode img = .error e)
    (hrange : displayIndex < 0 ∨ GetDisplayCount env ≤ displayIndex) :
    ∃ e, exec (CaptureDisplay env displayIndex) =
      ((none, some e), [Call.CaptureRect (GetDisplayBounds env displayIndex)]) := by
  obtain ⟨h0x, h0y, hz⟩ := hbounds displayIndex hrange
  unfold exec
  rw [CaptureDisplay_run]
  simp only [GetDisplayBounds] at *
  cases hi : env.CaptureRect (env.GetDisplayBounds displayIndex) with
  | error e => exact ⟨e, rfl⟩
  | ok img =>
    obtain ⟨hx, hy⟩ := hsize _ img h0x h0y hi
    obtain ⟨e, he⟩ := hpng img (by rw [hx, hy]; omega)
    refine ⟨e, ?_⟩
    simp only [List.nil_append, Prod.mk.injEq, and_true]
    exact encodeImage_error env img e he

/-- Witness for C6: with one display, indices 5 and -1 are out of range; the library
reports the empty rectangle for them and `CaptureDisplay` fails in the PNG encoder. -/
theorem CaptureDisplay_outOfRange_fails_witness :
    GetDisplayCount deskEnv = 1 ∧
    (∃ e, exec (CaptureDisplay deskEnv 5) =
      ((none, some e), [Call.CaptureRect (GetDisplayBounds deskEnv 5)])) ∧
    (exec (CaptureDisplay deskEnv 5)).1 = (none, some ⟨"png: invalid image size"⟩) ∧
    (exec (CaptureDisplay deskEnv (-1))).1 = (none, some ⟨"png: invalid image size"⟩) :=
  ⟨rfl,
    CaptureDisplay_outOfRange_fails deskEnv 5
      (fun i hi => by
        have hne : i ≠ 0 := by
          rcases hi with h | h
          · omega
          · have : (1 : Int) ≤ i := h
            omega
        have hb : GetDisplayBounds deskEnv i = imageRect 0 0 0 0 := if_neg hne
        rw [hb]
        decide)
      (fun r img _ _ h => by
        have h2 : blankImage r.Dx r.Dy = img := Except.ok.inj h
        rw [← h2]
        exact ⟨by simp [blankImage, RGBA.Bounds, Rectangle.Dx],
          by simp [blankImage, RGBA.Bounds, Rectangle.Dy]⟩)
      (fun img h => ⟨⟨"png: invalid image size"⟩, by
        show pngStub img = _
        unfold pngStub
        rw [if_pos h]⟩)
      (Or.inr (by decide)),
    by decide, by decide⟩

/-- C8: for each of `CaptureFullscreen`, `CaptureActiveDisplay`, `CaptureRegion`,
`CaptureDisplay` and `CaptureDisplayThumbnail`: whenever the grab call the operation
makes returns an error `e`, the operation returns a nil `CaptureResult` together with
exactly `e` (no image data; the error is neither wrapped nor replaced).
`CaptureActiveDisplay` returns the chosen display index as well. -/
theorem grab_error_propagated (env : Env) (e : Error) :
    (env.CaptureRect (GetDisplayBounds env (exec (GetMonitorAtCursor env)).1) = .error e →
      (exec (CaptureFullscreen env)).1 = (none, some e)) ∧
    (env.CaptureRect (GetDisplayBounds env (exec (GetMonitorAtCursor env)).1) = .error e →
      (exec (CaptureActiveDisplay env)).1 =
        (none, (exec (GetMonitorAtCursor env)).1, some e)) ∧
    (∀ x y width height, env.Capture x y width height = .error e →
      (exec (CaptureRegion env x y width height)).1 = (none, some e)) ∧
    (∀ displayIndex, env.CaptureRect (GetDisplayBounds env displayIndex) = .error e →
      (exec (CaptureDisplay env displayIndex)).1 = (none, some e)) ∧
    (∀ rnd conv displayIndex maxWidth maxHeight,
      env.CaptureRect (GetDisplayBounds env displayIndex) = .error e →
      (exec (CaptureDisplayThumbnail rnd conv env displayIndex maxWidth maxHeight)).1 =
        (none, some e)) := by
  simp only [GetDisplayBounds]
  refine ⟨?_, ?_, ?_, ?_, ?_⟩
  · intro h
    show ((CaptureFullscreen env).run []).1 = _
    rw [CaptureFullscreen_run]
    simp only [h]
  · intro h
    show ((CaptureActiveDisplay env).run []).1 = _
    rw [CaptureActiveDisplay_run]
    simp only [h]
  · intro x y width height h
    show ((CaptureRegion env x y width height).run []).1 = _
    rw [CaptureRegion_run]
    simp only [h]
  · intro displayIndex h
    show ((CaptureDisplay env displayIndex).run []).1 = _
    rw [CaptureDisplay_run]
    simp only [h]
  · intro rnd conv displayIndex maxWidth maxHeight h
    show ((CaptureDisplayThumbnail rnd conv env displayIndex maxWidth maxHeight).run []).1 = _
    rw [CaptureDisplayThumbnail_run]
    simp only [h]

/-- Witness for C8: with every grab failing with "BitBlt failed", all five operations
return nil and that error. -/
theorem grab_error_propagated_witness :
    (exec (CaptureFullscreen deniedEnv)).1 = (none, some ⟨"BitBlt failed"⟩) ∧
    (exec (CaptureActiveDisplay deniedEnv)).1 = (none, 0, some ⟨"BitBlt failed"⟩) ∧
    (exec (CaptureRegion deniedEnv 10 20 300 200)).1 = (none, some ⟨"BitBlt failed"⟩) ∧
    (exec (CaptureDisplay deniedEnv 0)).1 = (none, some ⟨"BitBlt failed"⟩) ∧
    (exec (CaptureDisplayThumbnail roundF64 (fun _ => 0) deniedEnv 0 200 200)).1 =
      (none, some ⟨"BitBlt failed"⟩) := by
  have key := grab_error_propagated deniedEnv ⟨"BitBlt failed"⟩
  have h0 : (exec (GetMonitorAtCursor deniedEnv)).1 = 0 := by decide
  refine ⟨key.1 rfl, ?_, key.2.2.1 10 20 300 200 rfl, key.2.2.2.1 0 rfl,
    key.2.2.2.2 roundF64 (fun _ => 0) 0 200 200 rfl⟩
  have := key.2.1 rfl
  rw [h0] at this
  exact this

/-! ## Window capture -/

/-- C7: in `CaptureWindowByCoords`, for every window handle and either value of
`excludeTitleBar`, let `(x, y, width, height)` be the rectangle resolved after the
foreground coercion and `tr` the calls made until then. If `width ≤ 0` or
`height ≤ 0`, the operation returns `(nil, nil)` having made the calls `tr` only, none
of which is a grab (`CaptureRegion` is not invoked). Otherwise result and calls are
exactly those of `CaptureRegion(x, y, width, height)` run after `tr`. -/
theorem CaptureWindowByCoords_validation (env : Env) (hwnd : Nat) (excludeTitleBar : Bool)
    (x y width height : Int) (tr : List Call)
    (hpre : exec (do bringWindowToForeground env hwnd
                     resolveWindowRect env hwnd excludeTitleBar) = ((x, y, width, height), tr)) :
    (∀ c ∈ tr, c.isGrab = false) ∧
    (width ≤ 0 ∨ height ≤ 0 →
      exec (CaptureWindowByCoords env hwnd excludeTitleBar) = ((none, none), tr)) ∧
    (¬ (width ≤ 0 ∨ height ≤ 0) →
      exec (CaptureWindowByCoords env hwnd excludeTitleBar) =
        (CaptureRegion env x y width height).run tr) := by
  have hpre2 : (resolveWindowRect env hwnd excludeTitleBar).run
      ((bringWindowToForeground env hwnd).run []).2 = ((x, y, width, height), tr) := hpre
  have hrun := CaptureWindowByCoords_run env hwnd excludeTitleBar []
  rw [hpre2] at hrun
  simp only at hrun
  refine ⟨?_, ?_, ?_⟩
  · have := resolveWindowRect_noGrab env hwnd excludeTitleBar _
      (bringWindowToForeground_noGrab env hwnd)
    rw [hpre2] at this
    exact this
  · intro h
    unfold exec
    rw [hrun, if_pos h]
  · intro h
    unfold exec
    rw [hrun, if_neg h]

/-- Witness for C7: a window whose extended frame bounds are the empty rectangle
`(100,100)-(100,100)`. -/
theorem CaptureWindowByCoords_validation_witness :
    exec (CaptureWindowByCoords emptyWindowEnv 7 false) =
      ((none, none),
        [Call.IsIconic 7, Call.ShowWindow 7 SW_RESTORE, Call.BringWindowToTop 7,
          Call.SetForegroundWindow 7, Call.Sleep 100,
          Call.DwmGetWindowAttribute 7 DWMWA_EXTENDED_FRAME_BOUNDS]) :=
  (CaptureWindowByCoords_validation emptyWindowEnv 7 false 100 100 0 0 _ (by decide)).2.1
    (Or.inl (le_refl _))

/-- C9: in `CaptureWindowByCoords` with `excludeTitleBar = false` the rectangle used is
the one `DwmGetWindowAttribute` wrote exactly when the compositor library and procedure
are available and that call returns 0; when the compositor is unavailable, or the call
returns non-zero, it is the rectangle in the buffer after the legacy `GetWindowRect`
query, which is made in these two cases only. The resolved region is `x = Left`,
`y = Top`, `width = Right - Left`, `height = Bottom - Top` of that rectangle, the
differences being those of `int32` (equal to the integer differences whenever these fit
`int32`), and when both are positive the grab made is `Capture(x, y, width, height)`. -/
theorem CaptureWindowByCoords_fullWindow (env : Env) (hwnd : Nat) :
    (fullWindowRECT env hwnd =
      (if env.dwmapiLoad = true ∧ env.dwmFind = true ∧
          (env.DwmGetWindowAttribute hwnd DWMWA_EXTENDED_FRAME_BOUNDS ⟨0, 0, 0, 0⟩ 16).1 = 0 then
        (env.DwmGetWindowAttribute hwnd DWMWA_EXTENDED_FRAME_BOUNDS ⟨0, 0, 0, 0⟩ 16).2
      else if env.dwmapiLoad = true ∧ env.dwmFind = true then
        env.GetWindowRect hwnd
          (env.DwmGetWindowAttribute hwnd DWMWA_EXTENDED_FRAME_BOUNDS ⟨0, 0, 0, 0⟩ 16).2
      else env.GetWindowRect hwnd ⟨0, 0, 0, 0⟩)) ∧
    (exec (resolveWindowRect env hwnd false)).1 =
      ((fullWindowRECT env hwnd).Left, (fullWindowRECT env hwnd).Top,
        sub32 (fullWindowRECT env hwnd).Right (fullWindowRECT env hwnd).Left,
        sub32 (fullWindowRECT env hwnd).Bottom (fullWindowRECT env hwnd).Top) ∧
    (Call.GetWindowRect hwnd ∈ (exec (resolveWindowRect env hwnd false)).2 ↔
      ¬ (env.dwmapiLoad = true ∧ env.dwmFind = true ∧
        (env.DwmGetWindowAttribute hwnd DWMWA_EXTENDED_FRAME_BOUNDS ⟨0, 0, 0, 0⟩ 16).1 = 0)) ∧
    (Call.DwmGetWindowAttribute hwnd DWMWA_EXTENDED_FRAME_BOUNDS ∈
        (exec (resolveWindowRect env hwnd false)).2 ↔
      (env.dwmapiLoad = true ∧ env.dwmFind = true)) ∧
    (∀ a b : Int, -2 ^ 31 ≤ a - b → a - b < 2 ^ 31 → sub32 a b = a - b) ∧
    (0 < sub32 (fullWindowRECT env hwnd).Right (fullWindowRECT env hwnd).Left →
      0 < sub32 (fullWindowRECT env hwnd).Bottom (fullWindowRECT env hwnd).Top →
      ∀ c ∈ (exec (CaptureWindowByCoords env hwnd false)).2, c.isGrab = true →
        c = Call.Capture (fullWindowRECT env hwnd).Left (fullWindowRECT env hwnd).Top
          (sub32 (fullWindowRECT env hwnd).Right (fullWindowRECT env hwnd).Left)
          (sub32 (fullWindowRECT env hwnd).Bottom (fullWindowRECT env hwnd).Top)) ∧
    (0 < sub32 (fullWindowRECT env hwnd).Right (fullWindowRECT env hwnd).Left →
      0 < sub32 (fullWindowRECT env hwnd).Bottom (fullWindowRECT env hwnd).Top →
      (exec (CaptureWindowByCoords env hwnd false)).2.getLast? =
        some (Call.Capture (fullWindowRECT env hwnd).Left (fullWindowRECT env hwnd).Top
          (sub32 (fullWindowRECT env hwnd).Right (fullWindowRECT env hwnd).Left)
          (sub32 (fullWindowRECT env hwnd).Bottom (fullWindowRECT env hwnd).Top))) := by
  have hrun : ∀ tr, (resolveWindowRect env hwnd false).run tr = _ :=
    fun tr => resolveWindowRect_full_run env hwnd tr
  refine ⟨?_, ?_, ?_, ?_, ?_, ?_, ?_⟩
  · unfold fullWindowRECT
    simp only
    split_ifs <;> first | rfl | (exfalso; tauto)
  · show ((resolveWindowRect env hwnd false).run []).1 = _
    rw [hrun]
  · show _ ∈ ((resolveWindowRect env hwnd false).run []).2 ↔ _
    rw [hrun]
    unfold fullWindowCalls
    simp only [List.nil_append]
    split_ifs with h1 h2
    · simp [h1, h2]
    · simp [h1, h2]
    · simp
      tauto
  · show _ ∈ ((resolveWindowRect env hwnd false).run []).2 ↔ _
    rw [hrun]
    unfold fullWindowCalls
    simp only [List.nil_append]
    split_ifs with h1 h2
    · simp [h1]
    · simp [h1]
    · simpa using h1
  · intro a b h1 h2
    exact wrap32_of_fits _ h1 h2
  · intro hw hh c hc hg
    have hguard : ¬ (sub32 (fullWindowRECT env hwnd).Right (fullWindowRECT env hwnd).Left ≤ 0 ∨
        sub32 (fullWindowRECT env hwnd).Bottom (fullWindowRECT env hwnd).Top ≤ 0) := by omega
    have hc2 : c ∈ ((CaptureWindowByCoords env hwnd false).run []).2 := hc
    rw [CaptureWindowByCoords_run, hrun] at hc2
    simp only [if_neg hguard, CaptureRegion_run] at hc2
    rcases List.mem_append.mp hc2 with hc3 | hc3
    · have hno := resolveWindowRect_noGrab env hwnd false _
        (bringWindowToForeground_noGrab env hwnd) c (by rw [hrun]; exact hc3)
      rw [hno] at hg
      exact absurd hg (by decide)
    · simpa using hc3
  · intro hw hh
    have hguard : ¬ (sub32 (fullWindowRECT env hwnd).Right (fullWindowRECT env hwnd).Left ≤ 0 ∨
        sub32 (fullWindowRECT env hwnd).Bottom (fullWindowRECT env hwnd).Top ≤ 0) := by omega
    show ((CaptureWindowByCoords env hwnd false).run []).2.getLast? = _
    rw [CaptureWindowByCoords_run, hrun]
    simp only [if_neg hguard, CaptureRegion_run]
    simp

/-- Witness for C9: a window whose compositor query succeeds is captured at its
extended frame bounds `(100,100)-(900,700)`; without the compositor library it is
captured at the `GetWindowRect` rectangle `(93,100)-(907,707)`. -/
theorem CaptureWindowByCoords_fullWindow_witness :
    (exec (CaptureWindowByCoords deskEnv 7 false)).2.getLast? =
      some (Call.Capture 100 100 800 600) ∧
    (exec (CaptureWindowByCoords legacyEnv 7 false)).2.getLast? =
      some (Call.Capture 93 100 814 607) :=
  ⟨(CaptureWindowByCoords_fullWindow deskEnv 7).2.2.2.2.2.2 (by decide) (by decide),
    (CaptureWindowByCoords_fullWindow legacyEnv 7).2.2.2.2.2.2 (by decide) (by decide)⟩

end Snipshot
